import Mathlib

/-!
Verification of the dllexports metadata compilers
(`metajson2il.py` and `metatext2il.py`).

The Python sources are shallowly embedded: Python `str` values are modelled
as Lean `String` (a sequence of Unicode scalar values, as in CPython),
Python `int` as `Int`/`Nat` (CPython integers are unbounded), `bytes` as
`List Nat` with every element below 256, Python `dict` (insertion ordered)
as an association list, and fallible code returns `Except`.
-/

deriving instance DecidableEq for Except

namespace DllExports

/-! Character and string helpers modelling the CPython primitives that the
sources call (`str.strip`, `str.rstrip`, `str.split`, `str.find`,
`str.lower`, `int(...)`, `str.encode("utf-8")`).  These model the ASCII
behaviour of CPython; the definition files processed by the tool are
ASCII on the command/keyword level. -/

def isPySpace (c : Char) : Bool :=
  c == ' ' || c == '\t' || c == '\n' || c == '\r' || c == '\x0b' || c == '\x0c'

def pyRStripChars (cs : List Char) : List Char :=
  (cs.reverse.dropWhile isPySpace).reverse

def pyStripChars (cs : List Char) : List Char :=
  (((cs.dropWhile isPySpace).reverse.dropWhile isPySpace)).reverse

/-- Model of `raw_ln.rstrip("\r\n")`: drop trailing CR/LF characters. -/
def stripTrailingNewlines (cs : List Char) : List Char :=
  (cs.reverse.dropWhile (fun c => c == '\r' || c == '\n')).reverse

/-- Model of Python `s.split(sep)` for a one-character separator:
splits at every occurrence, keeping empty pieces (`"" → [""]`). -/
def splitChar (sep : Char) : List Char → List (List Char)
  | [] => [[]]
  | c :: rest =>
    let r := splitChar sep rest
    if c == sep then [] :: r
    else
      match r with
      | h :: t => (c :: h) :: t
      | [] => [[c]]

/-- ASCII lower-casing, modelling `str.lower` on ASCII input. -/
def pyLowerChar (c : Char) : Char :=
  if 'A' ≤ c ∧ c ≤ 'Z' then Char.ofNat (c.toNat + 32) else c

def pyLower (s : String) : String :=
  ⟨s.data.map pyLowerChar⟩

/-- Tail of an integer literal after its first digit: digits with single
underscores allowed between digits (as accepted by CPython `int`). -/
def intDigitsTail : List Char → Bool
  | [] => true
  | '_' :: rest =>
    match rest with
    | [] => false
    | c :: rest2 => c.isDigit && intDigitsTail rest2
  | c :: rest => c.isDigit && intDigitsTail rest

def digitsOk : List Char → Bool
  | [] => false
  | c :: rest => c.isDigit && intDigitsTail rest

def digitsValue (cs : List Char) : Nat :=
  cs.foldl (fun a c => if c == '_' then a else 10 * a + (c.toNat - 48)) 0

/-- Model of CPython `int(s)` (base 10, ASCII digits): strip whitespace,
optional sign, then digits with optional underscores between digits. -/
def pyParseInt (s : String) : Except String Int :=
  let cs := pyStripChars s.data
  match cs with
  | '+' :: rest =>
    if digitsOk rest then .ok (Int.ofNat (digitsValue rest))
    else .error "invalid literal for int() with base 10"
  | '-' :: rest =>
    if digitsOk rest then .ok (-(Int.ofNat (digitsValue rest)))
    else .error "invalid literal for int() with base 10"
  | rest =>
    if digitsOk rest then .ok (Int.ofNat (digitsValue rest))
    else .error "invalid literal for int() with base 10"

/-- UTF-8 encoding of one Unicode scalar value, as `str.encode("utf-8")`
does per character (Lean `Char` holds exactly the scalar values CPython
strings hold, surrogates excluded). -/
def utf8EncodeCharBytes (c : Char) : List Nat :=
  let n := c.toNat
  if n < 0x80 then [n]
  else if n < 0x800 then [0xC0 + n / 0x40, 0x80 + n % 0x40]
  else if n < 0x10000 then
    [0xE0 + n / 0x1000, 0x80 + n / 0x40 % 0x40, 0x80 + n % 0x40]
  else
    [0xF0 + n / 0x40000, 0x80 + n / 0x1000 % 0x40,
     0x80 + n / 0x40 % 0x40, 0x80 + n % 0x40]

/-- Model of `text.encode("utf-8")`. -/
def strUtf8 (s : String) : List Nat :=
  (s.data.map utf8EncodeCharBytes).flatten

/-! Hex rendering used by the encoders (`f"{b:02X}"` and `" ".join`). -/

def hexDigit (n : Nat) : Char :=
  if n < 10 then Char.ofNat (48 + n) else Char.ofNat (55 + n)

def hexByte (n : Nat) : String :=
  ⟨[hexDigit (n / 16 % 16), hexDigit (n % 16)]⟩

def sjoin (sep : String) : List String → String
  | [] => ""
  | [x] => x
  | x :: y :: rest => x ++ sep ++ sjoin sep (y :: rest)

/-! The binary attribute encoders. -/

/-- Byte-level content of `pascal_str_hex_bytes` from
`winunpack-win/z7_metadata/metajson2il.py`: Python computes
`length = len(text)` (the number of characters), fails when that exceeds
127, and emits the length byte followed by the UTF-8 bytes. -/
def pascal_str_bytes (text : String) : Except String (List Nat) :=
  let length := text.data.length
  if length > 127 then .error "text too long for Pascal string"
  else .ok (length :: strUtf8 text)

/-- The exact hex-text output of `pascal_str_hex_bytes`
(`f"{length:02X} {text_hex}"`; note the separating space is emitted even
for the empty string). -/
def pascal_str_hex_bytes (text : String) : Except String String :=
  let length := text.data.length
  if length > 127 then .error "text too long for Pascal string"
  else .ok (hexByte length ++ " " ++ sjoin " " ((strUtf8 text).map hexByte))

/-- Byte-level content of `ser_string_hex_bytes` from
`z7_com/z7_metadata/metatext2il.py`: three-tier compressed length prefix
over the UTF-8 byte length, then the UTF-8 bytes. -/
def ser_string_bytes (text : String) : Except String (List Nat) :=
  let encoded := strUtf8 text
  let length := encoded.length
  if length ≤ 0x7F then
    .ok (length :: encoded)
  else if length ≤ 0x3FFF then
    .ok ((((length >>> 8) &&& 0x3F) ||| 0x80) :: ((length >>> 0) &&& 0xFF) :: encoded)
  else if length ≤ 0x1FFFFFFF then
    .ok ((((length >>> 24) &&& 0x1F) ||| 0xC0) :: ((length >>> 16) &&& 0xFF) ::
         ((length >>> 8) &&& 0xFF) :: ((length >>> 0) &&& 0xFF) :: encoded)
  else .error "text too long for SerString"

/-- The exact hex-text output of `ser_string_hex_bytes`. -/
def ser_string_hex_bytes (text : String) : Except String String :=
  (ser_string_bytes text).map (fun bs => sjoin " " (bs.map hexByte))

/-- Little-endian bytes of a natural number, least significant first:
the value of `number.to_bytes(byte_count, "little")` when it succeeds. -/
def leBytes (n : Nat) : Nat → List Nat
  | 0 => []
  | b + 1 => (n % 256) :: leBytes (n / 256) b

/-- Model of `number.to_bytes(byte_count, "little")` including the
`OverflowError` CPython raises when the value does not fit. -/
def int_to_bytes_le (number : Nat) (byte_count : Nat) : Except String (List Nat) :=
  if number < 256 ^ byte_count then .ok (leBytes number byte_count)
  else .error "int too big to convert"

/-- The exact hex text of `hex_bytes_le` (present identically in both
source files). -/
def hex_bytes_le (number : Nat) (byte_count : Nat) : Except String String :=
  (int_to_bytes_le number byte_count).map (fun bs => sjoin " " (bs.map hexByte))

/-- Little-endian decoder (specification side): interprets a byte list,
least significant byte first, as an unsigned integer. -/
def decodeLE : List Nat → Nat
  | [] => 0
  | b :: rest => b + 256 * decodeLE rest

/-- Specification-side rewrite of the compressed ("SerString") length
prefix, following the spec text: one byte with top bit 0 for lengths up
to 0x7F; two bytes with top bits `10` for lengths up to 0x3FFF; four
bytes with top bits `110` for lengths up to 0x1FFFFFFF; failure beyond. -/
def serStringSpecBytes (bs : List Nat) : Except String (List Nat) :=
  let L := bs.length
  if L ≤ 0x7F then .ok (L :: bs)
  else if L ≤ 0x3FFF then
    .ok ((0x80 + L / 0x100) :: (L % 0x100) :: bs)
  else if L ≤ 0x1FFFFFFF then
    .ok ((0xC0 + L / 0x1000000) :: (L / 0x10000 % 0x100) ::
         (L / 0x100 % 0x100) :: (L % 0x100) :: bs)
  else .error "text too long for SerString"

/-! The data model of `metajson2il.py`. -/

/-- `MetaType`: base type name, pointer-indirection depth, and the
backing-enumeration link set only by enrichment.  The Python constructor
rejects negative `stars`; that check is performed where the collector
parses the depth, so the stored depth is a `Nat`. -/
structure MetaType where
  name : String
  stars : Nat
  base_enum : Option String
deriving DecidableEq, Repr

inductive ArgumentDirection where
  | IN
  | OUT
  | INOUT
deriving DecidableEq, Repr

/-- The `frozenset` of `ArgumentAttribute` values (`CONST`, `COM_OUT`)
represented as its characteristic record. -/
structure ArgAttribs where
  const : Bool
  com_out : Bool
deriving DecidableEq, Repr

structure Argument where
  name : String
  arg_type : MetaType
  direction : ArgumentDirection
  optional : Bool
  attributes : ArgAttribs
  count_in_arg : Option Nat
  const_count : Option Nat
deriving DecidableEq, Repr

structure Function where
  dll : String
  name : String
  return_type : MetaType
  call_conv : String
  args : List Argument
deriving DecidableEq, Repr

structure FunctionPointerType where
  name : String
  return_type : MetaType
  call_conv_int : Nat
  args : List Argument
deriving DecidableEq, Repr

structure Method where
  name : String
  return_type : MetaType
  args : List Argument
deriving DecidableEq, Repr

/-- Interface: `group` and `value` are validated to lie in [0,255] by the
Python constructor and therefore stored as `Nat`. -/
structure Interface where
  name : String
  group : Nat
  value : Nat
  base_type : MetaType
  methods : List Method
deriving DecidableEq, Repr

structure EnumVariant where
  name : String
  value : Int
deriving DecidableEq, Repr

/-- Enumeration; `name_to_variant` is the insertion-ordered dict. -/
structure Enumeration where
  name : String
  base_type : MetaType
  name_to_variant : List (String × EnumVariant)
deriving DecidableEq, Repr

/-- Metadata: the model root; `name_to_enum` is the insertion-ordered
dict of enumerations. -/
structure Metadata where
  name : String
  version : String
  funcs : List Function
  func_ptrs : List FunctionPointerType
  interfaces : List Interface
  name_to_enum : List (String × Enumeration)
deriving DecidableEq, Repr

/-- First-match association-list lookup, modelling `dict.get` (keys are
unique by construction, exactly as in the Python dicts). -/
def lookupAL {α : Type} (l : List (String × α)) (k : String) : Option α :=
  match l with
  | [] => none
  | (k2, v) :: rest => if k2 = k then some v else lookupAL rest k

/-- Update the (unique) entry with the given key, modelling in-place
mutation of a dict value. -/
def updateAL {α : Type} (l : List (String × α)) (k : String) (f : α → α) :
    List (String × α) :=
  match l with
  | [] => []
  | (k2, v) :: rest =>
    if k2 = k then (k2, f v) :: rest else (k2, v) :: updateAL rest k f

/-- Replace the element at an index, modelling in-place mutation of a
list element (out-of-range indices leave the list unchanged; such
indices never arise in reachable collector states). -/
def listModify {α : Type} (l : List α) (i : Nat) (f : α → α) : List α :=
  match l, i with
  | [], _ => []
  | x :: rest, 0 => f x :: rest
  | x :: rest, n + 1 => x :: listModify rest n f

/-- The static name→representation table of `MetaType.il_type`. -/
def ilTypeRemap : List (String × String) :=
  [("BOOL", "valuetype [Windows.Win32.winmd]Windows.Win32.Foundation.BOOL"),
   ("BSTR", "valuetype [Windows.Win32.winmd]Windows.Win32.Foundation.BSTR"),
   ("FILETIME", "valuetype [Windows.Win32.winmd]Windows.Win32.Foundation.FILETIME"),
   ("GUID", "valuetype [netstandard]System.Guid"),
   ("HRESULT", "valuetype [Windows.Win32.winmd]Windows.Win32.Foundation.HRESULT"),
   ("IUnknown", "[Windows.Win32.winmd]Windows.Win32.System.Com.IUnknown"),
   ("PROPID", "uint32"),
   ("PROPVARIANT", "valuetype [Windows.Win32.winmd]Windows.Win32.System.Com.StructuredStorage.PROPVARIANT"),
   ("size_t", "native uint"),
   ("VARTYPE", "uint16")]

/-- The `"I[A-Z][a-z]..."` test of `il_type` (`isascii`/`isupper`/
`islower` on ASCII characters). -/
def isComInterfaceName (name : String) : Bool :=
  match name.data with
  | 'I' :: c1 :: c2 :: _ =>
    ('A' ≤ c1 && c1 ≤ 'Z') && ('a' ≤ c2 && c2 ≤ 'z')
  | _ => false

/-- `MetaType.il_type`: output-type resolution (remap table, local COM
interface rule, local function-pointer class rule, passthrough), with
one `*` appended per indirection level. -/
def MetaType.il_type (mt : MetaType) (meta : Metadata) : String :=
  let starless :=
    match lookupAL ilTypeRemap mt.name with
    | some remapped => remapped
    | none =>
      if isComInterfaceName mt.name then "class " ++ meta.name ++ "." ++ mt.name
      else if meta.func_ptrs.any (fun fptr => fptr.name = mt.name) then
        "class " ++ meta.name ++ "." ++ mt.name
      else mt.name
  starless ++ ⟨List.replicate mt.stars '*'⟩

/-- `MetaType.enrich_base_enum`: for a depth-0 reference whose output
type name is a key of `name_to_enum`, rewrite base name and depth to the
enumeration's base type and record the enumeration name. -/
def MetaType.enrich_base_enum (mt : MetaType) (meta : Metadata) : MetaType :=
  if mt.stars ≠ 0 then mt
  else
    match lookupAL meta.name_to_enum (mt.il_type meta) with
    | none => mt
    | some en =>
      { name := en.base_type.name, stars := en.base_type.stars,
        base_enum := some en.name }

/-- `FunctionPointerType.call_conv_hex`:
`" ".join(f"{b:02X}" for b in call_conv_int.to_bytes(4, "little"))`. -/
def call_conv_hex (fptr : FunctionPointerType) : Except String String :=
  (int_to_bytes_le fptr.call_conv_int 4).map (fun bs => sjoin " " (bs.map hexByte))

/-! The declaration collector (`CollectorState.collect_path`).

Python's context slots (`self.func`, `self.iface`, `self.enum`) hold
references aliasing objects inside `self.meta`; mutation through a slot
is visible in the model.  The embedding makes the aliasing explicit: a
slot is either a *live* location inside the current `Metadata` (an index
or dict key, stable because the model lists/dicts only grow), or a
*dead* private copy.  A slot becomes dead when a later `meta` command
replaces the model: the Python objects it referenced survive but are no
longer reachable from the new model, exactly like a dead copy.  (One
invisible simplification: a method appended to a dead interface is
tracked in the dead function slot, and later argument appends update
that copy but not the snapshot stored in the dead interface slot; in
Python both are the same unreachable object, which no later command and
no rendering can observe.) -/

inductive FuncTarget where
  | liveFunc (i : Nat)
  | liveFptr (i : Nat)
  | liveMethod (i j : Nat)
  | deadFunc (f : Function)
  | deadFptr (f : FunctionPointerType)
  | deadMethod (m : Method)
deriving DecidableEq, Repr

inductive IfaceTarget where
  | live (i : Nat)
  | dead (it : Interface)
deriving DecidableEq, Repr

inductive EnumTarget where
  | live (key : String)
  | dead (e : Enumeration)
deriving DecidableEq, Repr

structure CollectorState where
  meta : Option Metadata
  dll : Option String
  iface : Option IfaceTarget
  func : Option FuncTarget
  enum : Option EnumTarget
  all_dlls : List String
deriving DecidableEq, Repr

def initState : CollectorState :=
  { meta := none, dll := none, iface := none, func := none, enum := none,
    all_dlls := [] }

/-- Fatal errors: Python raises `ValueError` either with a
`file ... line ...:` prefix (grammar and context errors) or bare
(constructor and parsing errors). -/
inductive CollectError where
  | located (path : String) (line : Nat) (msg : String)
  | bare (msg : String)
deriving DecidableEq, Repr

/-- Result of one line: continue with a new state, or descend into an
included file first. -/
inductive StepOut where
  | next (st : CollectorState)
  | inc (st : CollectorState) (path : String)
deriving DecidableEq, Repr

def defaultFunction : Function :=
  { dll := "", name := "", return_type := ⟨"", 0, none⟩, call_conv := "",
    args := [] }

def defaultFptr : FunctionPointerType :=
  { name := "", return_type := ⟨"", 0, none⟩, call_conv_int := 0, args := [] }

def defaultMethod : Method :=
  { name := "", return_type := ⟨"", 0, none⟩, args := [] }

def defaultIface : Interface :=
  { name := "", group := 0, value := 0, base_type := ⟨"", 0, none⟩,
    methods := [] }

def defaultEnumeration : Enumeration :=
  { name := "", base_type := ⟨"", 0, none⟩, name_to_variant := [] }

/-- Snapshot a live function slot out of a model about to be replaced.
The default fallbacks are never hit in reachable states (live indices
always point into the current model). -/
def deadifyFunc (m : Metadata) : FuncTarget → FuncTarget
  | .liveFunc i => .deadFunc (m.funcs.getD i defaultFunction)
  | .liveFptr i => .deadFptr (m.func_ptrs.getD i defaultFptr)
  | .liveMethod i j =>
    .deadMethod (((m.interfaces.getD i defaultIface).methods).getD j defaultMethod)
  | t => t

def deadifyIface (m : Metadata) : IfaceTarget → IfaceTarget
  | .live i => .dead (m.interfaces.getD i defaultIface)
  | t => t

def deadifyEnum (m : Metadata) : EnumTarget → EnumTarget
  | .live key => .dead (lookupAL m.name_to_enum key |>.getD defaultEnumeration)
  | t => t

/-- Append an argument through the function slot
(`self.func.args.append(arg)`). -/
def appendArgToFunc (st : CollectorState) (t : FuncTarget) (a : Argument) :
    CollectorState :=
  match t with
  | .liveFunc i =>
    { st with meta := st.meta.map (fun m =>
        { m with funcs := (listModify m.funcs i
            (fun f => { f with args := f.args ++ [a] })) }) }
  | .liveFptr i =>
    { st with meta := st.meta.map (fun m =>
        { m with func_ptrs := (listModify m.func_ptrs i
            (fun f => { f with args := f.args ++ [a] })) }) }
  | .liveMethod i j =>
    { st with meta := st.meta.map (fun m =>
        { m with interfaces := (listModify m.interfaces i
            (fun it => { it with methods := (listModify it.methods j
                (fun me => { me with args := me.args ++ [a] })) })) }) }
  | .deadFunc f => { st with func := some (.deadFunc { f with args := f.args ++ [a] }) }
  | .deadFptr f => { st with func := some (.deadFptr { f with args := f.args ++ [a] }) }
  | .deadMethod me => { st with func := some (.deadMethod { me with args := me.args ++ [a] }) }

/-- Append a freshly created method through the interface slot
(`self.iface.methods.append(self.func)`), also setting the function
slot to the new method. -/
def appendMethodToIface (st : CollectorState) (t : IfaceTarget) (me : Method) :
    CollectorState :=
  match t with
  | .live i =>
    let oldLen :=
      ((st.meta.getD ⟨"", "", [], [], [], []⟩).interfaces.getD i defaultIface).methods.length
    { st with
      meta := st.meta.map (fun m =>
        { m with interfaces := (listModify m.interfaces i
            (fun it => { it with methods := it.methods ++ [me] })) }),
      func := some (.liveMethod i oldLen) }
  | .dead ifc =>
    { st with
      iface := some (.dead { ifc with methods := ifc.methods ++ [me] }),
      func := some (.deadMethod me) }

/-! Per-command handlers, one per branch of the big dispatch in
`CollectorState.collect_path`.  Each mirrors the Python checks in source
order. -/

/-- `meta NAME VERSION`: creates a fresh `Metadata` and stores it in
`self.meta`; Python performs no already-set check, so an existing header
is replaced and the old context slots keep aliasing the old (now
unreachable) model. -/
def handleMeta (path : String) (lineNumber : Nat) (st : CollectorState)
    (pieces : List String) : Except CollectError StepOut :=
  if pieces.length ≠ 3 then
    .error (.located path lineNumber "Usage: meta NAME VERSION")
  else
    let name := pieces.getD 1 ""
    let version := pieces.getD 2 ""
    let newSt :=
      match st.meta with
      | none =>
        { st with meta := some ⟨name, version, [], [], [], []⟩ }
      | some old =>
        { st with
          meta := some ⟨name, version, [], [], [], []⟩,
          func := st.func.map (deadifyFunc old),
          iface := st.iface.map (deadifyIface old),
          enum := st.enum.map (deadifyEnum old) }
    .ok (.next newSt)

/-- `fptr NAME RETTYPE RETSTARS`: creates a `FunctionPointerType` with
the fixed calling-convention code `WINAPI_INT = 1`, enriches the return
type against the current model, appends it, and sets the function
slot. -/
def handleFptr (path : String) (lineNumber : Nat) (st : CollectorState)
    (m : Metadata) (pieces : List String) : Except CollectError StepOut :=
  if pieces.length ≠ 4 then
    .error (.located path lineNumber "Usage: fptr NAME RETTYPE RETSTARS")
  else
    let name := pieces.getD 1 ""
    let ret_type := pieces.getD 2 ""
    let ret_stars_str := pieces.getD 3 ""
    match pyParseInt ret_stars_str with
    | .error e => .error (.bare e)
    | .ok ret_stars =>
      if ret_stars < 0 then .error (.bare "stars must be at least 0")
      else
        let rt := MetaType.enrich_base_enum ⟨ret_type, ret_stars.toNat, none⟩ m
        let fptr : FunctionPointerType := ⟨name, rt, 1, []⟩
        .ok (.next { st with
          meta := some { m with func_ptrs := m.func_ptrs ++ [fptr] },
          func := some (.liveFptr m.func_ptrs.length) })

/-- `dll NAME`: sets the current DLL and adds the lower-cased name to
the import set. -/
def handleDll (path : String) (lineNumber : Nat) (st : CollectorState)
    (pieces : List String) : Except CollectError StepOut :=
  if pieces.length ≠ 2 then
    .error (.located path lineNumber "Usage: dll NAME")
  else
    let name := pieces.getD 1 ""
    let lowered := pyLower name
    let dlls :=
      if lowered ∈ st.all_dlls then st.all_dlls else st.all_dlls ++ [lowered]
    .ok (.next { st with dll := some name, all_dlls := dlls })

/-- `fn NAME RETTYPE RETSTARS`: requires a current DLL; creates a
`Function` with calling convention `"winapi"` (the `call_conv` argument
is always `None`), enriches the return type, appends it, and sets the
function slot. -/
def handleFn (path : String) (lineNumber : Nat) (st : CollectorState)
    (m : Metadata) (pieces : List String) : Except CollectError StepOut :=
  if pieces.length ≠ 4 then
    .error (.located path lineNumber "Usage: fn NAME RETTYPE RETSTARS")
  else
    match st.dll with
    | none =>
      .error (.located path lineNumber
        "\"fn\" entry without a previous \"dll\" entry")
    | some dllName =>
      let name := pieces.getD 1 ""
      let ret_type := pieces.getD 2 ""
      let ret_stars_str := pieces.getD 3 ""
      match pyParseInt ret_stars_str with
      | .error e => .error (.bare e)
      | .ok ret_stars =>
        if ret_stars < 0 then .error (.bare "stars must be at least 0")
        else
          let rt := MetaType.enrich_base_enum ⟨ret_type, ret_stars.toNat, none⟩ m
          let f : Function := ⟨dllName, name, rt, "winapi", []⟩
          .ok (.next { st with
            meta := some { m with funcs := m.funcs ++ [f] },
            func := some (.liveFunc m.funcs.length) })

/-- `^ca([0-9]+)$`: count-by-argument-index attribute word. -/
def caMatch (w : String) : Option Nat :=
  match w.data with
  | 'c' :: 'a' :: rest =>
    if rest ≠ [] ∧ rest.all Char.isDigit then some (digitsValue rest) else none
  | _ => none

/-- `^cc([0-9]+)$`: constant-count attribute word. -/
def ccMatch (w : String) : Option Nat :=
  match w.data with
  | 'c' :: 'c' :: rest =>
    if rest ≠ [] ∧ rest.all Char.isDigit then some (digitsValue rest) else none
  | _ => none

def dedupGo (seen : List String) : List String → List String
  | [] => []
  | x :: rest =>
    if x ∈ seen then dedupGo seen rest else x :: dedupGo (x :: seen) rest

/-- The attribute word set
`{a.strip() for a in attribs_str.split(" ") if a.strip()}`.  Python
iterates this `set` in an unspecified (hash-randomized) order; the model
fixes first-occurrence order, which is observation-equivalent for every
input in which each of the two count patterns occurs at most once. -/
def splitAttribWords (s : String) : List String :=
  dedupGo []
    ((((splitChar ' ' s.data).map pyStripChars).filter (fun l => l ≠ [])).map
      (fun l => (⟨l⟩ : String)))

/-- The count-extraction loop: the last `ca` match and the last `cc`
match win (Python repeatedly overwrites the variables), matched words
are removed, the rest keep their order. -/
def extractCounts (ws : List String) :
    Option Nat × Option Nat × List String :=
  ((ws.filterMap caMatch).getLast?,
   (ws.filterMap ccMatch).getLast?,
   ws.filter (fun w => (caMatch w).isNone && (ccMatch w).isNone))

/-- The attribute mapping `{"const": CONST, "com_out": COM_OUT}[a]`,
raising `KeyError` on any other word. -/
def attribsOf : List String → Except String ArgAttribs
  | [] => .ok ⟨false, false⟩
  | w :: rest =>
    if w = "const" then (attribsOf rest).map (fun a => { a with const := true })
    else if w = "com_out" then
      (attribsOf rest).map (fun a => { a with com_out := true })
    else .error ("KeyError: " ++ w)

def directionOf (s : String) : Option ArgumentDirection :=
  if s = "in" then some .IN
  else if s = "out" then some .OUT
  else if s = "inout" then some .INOUT
  else none

/-- `arg|oarg DIRECTION NAME TYPE STARS [ATTRIBS]`: requires the
function slot; parses direction, depth and attribute words, rejects
conflicting count specs, enriches the argument type against the current
model, and appends the argument through the function slot. -/
def handleArg (path : String) (lineNumber : Nat) (st : CollectorState)
    (m : Metadata) (pieces : List String) : Except CollectError StepOut :=
  if pieces.length ≠ 5 ∧ pieces.length ≠ 6 then
    .error (.located path lineNumber
      "Usage: arg|oarg DIRECTION NAME TYPE STARS [ATTRIBS] (oarg = optional argument)")
  else
    match st.func with
    | none =>
      .error (.located path lineNumber
        "\"arg\" entry without a previous \"func\" or \"fptr\" entry")
    | some t =>
      let direction_str := pieces.getD 1 ""
      let name := pieces.getD 2 ""
      let arg_type := pieces.getD 3 ""
      let arg_stars_str := pieces.getD 4 ""
      let attribs_str := pieces.getD 5 ""
      match pyParseInt arg_stars_str with
      | .error e => .error (.bare e)
      | .ok arg_stars =>
        match directionOf direction_str with
        | none => .error (.bare ("KeyError: " ++ direction_str))
        | some direction =>
          let parsed :=
            if pyStripChars attribs_str.data ≠ [] then
              let ws := splitAttribWords attribs_str
              let (ca, cc, rest) := extractCounts ws
              (attribsOf rest).map (fun a => (ca, cc, a))
            else .ok (none, none, (⟨false, false⟩ : ArgAttribs))
          match parsed with
          | .error e => .error (.bare e)
          | .ok (count_in_arg, const_count, attribs) =>
            if arg_stars < 0 then .error (.bare "stars must be at least 0")
            else if count_in_arg.isSome ∧ const_count.isSome then
              .error (.bare
                "count_in_arg and const_count must not be set simultaneously")
            else
              let at0 : MetaType := ⟨arg_type, arg_stars.toNat, none⟩
              let arg : Argument :=
                ⟨name, MetaType.enrich_base_enum at0 m, direction,
                 pieces.getD 0 "" == "oarg", attribs, count_in_arg, const_count⟩
              .ok (.next (appendArgToFunc st t arg))

/-- `iface NAME GROUP VALUE BASETYPE`: validates group/value ∈ [0,255],
creates the `Interface` with an *unenriched* base type reference,
appends it, and sets the interface slot. -/
def handleIface (path : String) (lineNumber : Nat) (st : CollectorState)
    (m : Metadata) (pieces : List String) : Except CollectError StepOut :=
  if pieces.length ≠ 5 then
    .error (.located path lineNumber "Usage: iface NAME GROUP VALUE BASETYPE")
  else
    let name := pieces.getD 1 ""
    let group_str := pieces.getD 2 ""
    let value_str := pieces.getD 3 ""
    let base_type := pieces.getD 4 ""
    match pyParseInt group_str with
    | .error e => .error (.bare e)
    | .ok group =>
      match pyParseInt value_str with
      | .error e => .error (.bare e)
      | .ok value =>
        if ¬ (0 ≤ group ∧ group ≤ 255) then
          .error (.bare "group must be between 0 and 255")
        else if ¬ (0 ≤ value ∧ value ≤ 255) then
          .error (.bare "value must be between 0 and 255")
        else
          let ifc : Interface :=
            ⟨name, group.toNat, value.toNat, ⟨base_type, 0, none⟩, []⟩
          .ok (.next { st with
            meta := some { m with interfaces := m.interfaces ++ [ifc] },
            iface := some (.live m.interfaces.length) })

/-- `meth NAME RETTYPE RETSTARS`: requires the interface slot; creates
an `InterfaceMethod`, enriches its return type, appends it to the
interface, and sets the function slot to it. -/
def handleMeth (path : String) (lineNumber : Nat) (st : CollectorState)
    (m : Metadata) (pieces : List String) : Except CollectError StepOut :=
  if pieces.length ≠ 4 then
    .error (.located path lineNumber "Usage: meth NAME RETTYPE RETSTARS")
  else
    match st.iface with
    | none =>
      .error (.located path lineNumber
        "\"meth\" entry without a previous \"iface\" entry")
    | some t =>
      let name := pieces.getD 1 ""
      let ret_type := pieces.getD 2 ""
      let ret_stars_str := pieces.getD 3 ""
      match pyParseInt ret_stars_str with
      | .error e => .error (.bare e)
      | .ok ret_stars =>
        if ret_stars < 0 then .error (.bare "stars must be at least 0")
        else
          let rt := MetaType.enrich_base_enum ⟨ret_type, ret_stars.toNat, none⟩ m
          .ok (.next (appendMethodToIface st t ⟨name, rt, []⟩))

/-- `smet NAME`: the standard-method shorthand; requires the interface
slot; creates a zero-argument method returning `HRESULT` *without*
enriching the return type, appends it, and sets the function slot to
it. -/
def handleSmet (path : String) (lineNumber : Nat) (st : CollectorState)
    (pieces : List String) : Except CollectError StepOut :=
  if pieces.length ≠ 2 then
    .error (.located path lineNumber "Usage: smet NAME")
  else
    match st.iface with
    | none =>
      .error (.located path lineNumber
        "\"smet\" entry without a previous \"iface\" entry")
    | some t =>
      let name := pieces.getD 1 ""
      .ok (.next (appendMethodToIface st t ⟨name, ⟨"HRESULT", 0, none⟩, []⟩))

/-- `inc PATH`: request depth-first inclusion of another file. -/
def handleInc (path : String) (lineNumber : Nat) (st : CollectorState)
    (pieces : List String) : Except CollectError StepOut :=
  if pieces.length ≠ 2 then
    .error (.located path lineNumber "Usage: inc PATH")
  else .ok (.inc st (pieces.getD 1 ""))

/-- `enum NAME BASETYPE`: rejects duplicate enumeration names, creates
the `Enumeration` (base type depth 0 by construction), stores it in the
model dict, and sets the enumeration slot. -/
def handleEnum (path : String) (lineNumber : Nat) (st : CollectorState)
    (m : Metadata) (pieces : List String) : Except CollectError StepOut :=
  if pieces.length ≠ 3 then
    .error (.located path lineNumber "Usage: enum NAME BASETYPE")
  else
    let name := pieces.getD 1 ""
    let basetype_str := pieces.getD 2 ""
    match lookupAL m.name_to_enum name with
    | some _ =>
      .error (.located path lineNumber ("duplicate enum named " ++ name))
    | none =>
      let en : Enumeration := ⟨name, ⟨basetype_str, 0, none⟩, []⟩
      .ok (.next { st with
        meta := some { m with name_to_enum := m.name_to_enum ++ [(name, en)] },
        enum := some (.live name) })

/-- `vnt NAME NUMVALUE`: requires the enumeration slot; rejects
duplicate variant names within the current enumeration, then appends
the variant through the slot. -/
def handleVnt (path : String) (lineNumber : Nat) (st : CollectorState)
    (pieces : List String) : Except CollectError StepOut :=
  if pieces.length ≠ 3 then
    .error (.located path lineNumber "Usage: vnt NAME NUMVALUE")
  else
    match st.enum with
    | none =>
      .error (.located path lineNumber
        "\"vnt\" entry without a previous \"enum\" entry")
    | some t =>
      let name := pieces.getD 1 ""
      let num_str := pieces.getD 2 ""
      let current :=
        match t with
        | .live key =>
          lookupAL ((st.meta.getD ⟨"", "", [], [], [], []⟩).name_to_enum) key
            |>.getD defaultEnumeration
        | .dead e => e
      match lookupAL current.name_to_variant name with
      | some _ =>
        .error (.located path lineNumber
          ("duplicate variant " ++ name ++ " in enum named " ++ current.name))
      | none =>
        match pyParseInt num_str with
        | .error e => .error (.bare e)
        | .ok value =>
          let addVnt := fun (e : Enumeration) =>
            { e with name_to_variant := e.name_to_variant ++ [(name, ⟨name, value⟩)] }
          match t with
          | .live key =>
            .ok (.next { st with
              meta := st.meta.map (fun m =>
                { m with name_to_enum := (updateAL m.name_to_enum key addVnt) }) })
          | .dead e =>
            .ok (.next { st with enum := some (.dead (addVnt e)) })

/-- The command dispatch of `collect_path`: `meta` is handled first;
every other command requires `self.meta` to be set; unknown commands
are grammar errors. -/
def dispatch (path : String) (lineNumber : Nat) (st : CollectorState)
    (pieces : List String) : Except CollectError StepOut :=
  let cmd := pieces.headD ""
  if cmd = "meta" then handleMeta path lineNumber st pieces
  else
    match st.meta with
    | none =>
      .error (.located path lineNumber "first entry must be \"meta\"")
    | some m =>
      if cmd = "fptr" then handleFptr path lineNumber st m pieces
      else if cmd = "dll" then handleDll path lineNumber st pieces
      else if cmd = "fn" then handleFn path lineNumber st m pieces
      else if cmd = "arg" ∨ cmd = "oarg" then handleArg path lineNumber st m pieces
      else if cmd = "iface" then handleIface path lineNumber st m pieces
      else if cmd = "meth" then handleMeth path lineNumber st m pieces
      else if cmd = "smet" then handleSmet path lineNumber st pieces
      else if cmd = "inc" then handleInc path lineNumber st pieces
      else if cmd = "enum" then handleEnum path lineNumber st m pieces
      else if cmd = "vnt" then handleVnt path lineNumber st pieces
      else .error (.located path lineNumber ("unknown command " ++ cmd))

/-- The line preprocessing of `collect_path`: strip the trailing
newline, truncate at `#` and right-trim, skip blank lines, split on
tabs. -/
def parseLineFields (rawLn : String) : Option (List String) :=
  let cs := stripTrailingNewlines rawLn.data
  let cs :=
    match cs.findIdx? (fun c => c == '#') with
    | some i => pyRStripChars (cs.take i)
    | none => cs
  if pyStripChars cs = [] then none
  else some ((splitChar '\t' cs).map (fun l => (⟨l⟩ : String)))

/-- One raw line of input: skip or dispatch. -/
def processLine (path : String) (lineNumber : Nat) (st : CollectorState)
    (rawLn : String) : Except CollectError StepOut :=
  match parseLineFields rawLn with
  | none => .ok (.next st)
  | some pieces => dispatch path lineNumber st pieces

/-- The line loop of `collect_path` over one file's lines, parameterized
by the recursive include handler (1-based line numbers, per file). -/
def collectLinesGo (rec : String → CollectorState → Except CollectError CollectorState)
    (path : String) : Nat → List String → CollectorState →
    Except CollectError CollectorState
  | _, [], st => .ok st
  | lineNumber, ln :: rest, st =>
    match processLine path lineNumber st ln with
    | .error e => .error e
    | .ok (.next st2) => collectLinesGo rec path (lineNumber + 1) rest st2
    | .ok (.inc st2 sub) =>
      match rec sub st2 with
      | .error e => .error e
      | .ok st3 => collectLinesGo rec path (lineNumber + 1) rest st3

/-- `CollectorState.collect_path` over an abstract file system.  Python
puts no bound on include recursion (an include cycle recurses until
resource exhaustion); the embedding makes the recursion total with
explicit fuel, consumed once per file opened. -/
def collectPathFuel (fs : String → Option (List String)) :
    Nat → String → CollectorState → Except CollectError CollectorState
  | 0, _, _ => .error (.bare "include recursion limit exceeded")
  | fuel + 1, path, st =>
    match fs path with
    | none => .error (.bare ("No such file or directory: " ++ path))
    | some lns => collectLinesGo (collectPathFuel fs fuel) path 1 lns st

def emptyMeta : Metadata := ⟨"", "", [], [], [], []⟩

/-- Reader for the argument list of the method at interface `i`,
method `j` of the current model. -/
def methodArgsAt (st : CollectorState) (i j : Nat) : List Argument :=
  (((st.meta.getD emptyMeta).interfaces.getD i defaultIface).methods.getD
    j defaultMethod).args

/-! Concrete input files used by the counterexamples and witnesses. -/

/-- Input for the C2 counterexample: two `meta` lines in one file. -/
def fsC2 : String → Option (List String) := fun p =>
  if p = "main" then some ["meta\tA\t1.0", "meta\tB\t2.0"] else none

/-- Input for the C4 counterexample: an enumeration whose name is
exactly the output type name of `HRESULT`, followed by an interface and
a standard-method shorthand returning `HRESULT`. -/
def fsC4 : String → Option (List String) := fun p =>
  if p = "main" then some
    ["meta\tM\t1.0",
     "enum\tvaluetype [Windows.Win32.winmd]Windows.Win32.Foundation.HRESULT\tuint32",
     "iface\tIFoo\t1\t2\tIUnknown",
     "smet\tDo"]
  else none

/-- The final collector state of the C4 counterexample run. -/
def stC4 : CollectorState :=
  { meta := some
      { name := "M", version := "1.0", funcs := [], func_ptrs := [],
        interfaces :=
          [{ name := "IFoo", group := 1, value := 2,
             base_type := ⟨"IUnknown", 0, none⟩,
             methods := [⟨"Do", ⟨"HRESULT", 0, none⟩, []⟩] }],
        name_to_enum :=
          [("valuetype [Windows.Win32.winmd]Windows.Win32.Foundation.HRESULT",
            ⟨"valuetype [Windows.Win32.winmd]Windows.Win32.Foundation.HRESULT",
             ⟨"uint32", 0, none⟩, []⟩)] },
    dll := none,
    iface := some (.live 0),
    func := some (.liveMethod 0 0),
    enum := some
      (.live "valuetype [Windows.Win32.winmd]Windows.Win32.Foundation.HRESULT"),
    all_dlls := [] }

/-- Input for the C9 witness: one free function and one function
pointer. -/
def fsC9 : String → Option (List String) := fun p =>
  if p = "main" then some
    ["meta\tA\t1.0", "dll\tFoo.DLL", "fn\tF\tUINT32\t0", "fptr\tP\tvoid\t1"]
  else none

/-- The model built by the C9 witness run. -/
def mC9 : Metadata :=
  { name := "A", version := "1.0",
    funcs := [⟨"Foo.DLL", "F", ⟨"UINT32", 0, none⟩, "winapi", []⟩],
    func_ptrs := [⟨"P", ⟨"void", 1, none⟩, 1, []⟩],
    interfaces := [], name_to_enum := [] }

/-- The final collector state of the C9 witness run. -/
def stC9 : CollectorState :=
  { meta := some mC9, dll := some "Foo.DLL", iface := none,
    func := some (.liveFptr 0), enum := none, all_dlls := ["foo.dll"] }

/-- Input for the C10 witness: an interface, a standard-method
shorthand, and an argument that must land on the shorthand method. -/
def fsC10 : String → Option (List String) := fun p =>
  if p = "main" then some
    ["meta\tM\t1.0", "iface\tIBar\t3\t4\tIUnknown", "smet\tDo",
     "arg\tin\tcount\tUINT32\t0"]
  else none

/-- A model with one enumeration `E` over `uint32`, for enrichment
witnesses. -/
def enE : Enumeration := ⟨"E", ⟨"uint32", 0, none⟩, []⟩

def mE : Metadata := ⟨"M", "1.0", [], [], [], [("E", enE)]⟩

/-- A collector state holding just an interface, for method-declaration
witnesses. -/
def mPre : Metadata :=
  ⟨"M", "1.0", [], [], [⟨"IBar", 3, 4, ⟨"IUnknown", 0, none⟩, []⟩], []⟩

def stPre : CollectorState :=
  { meta := some mPre, dll := none, iface := some (.live 0), func := none,
    enum := none, all_dlls := [] }

/-- The state after dispatching `smet Do` on `stPre`. -/
def stSm : CollectorState :=
  appendMethodToIface stPre (.live 0) ⟨"Do", ⟨"HRESULT", 0, none⟩, []⟩

/-- A minimal state with only a header, for declaration witnesses. -/
def stM : CollectorState :=
  { initState with meta := some ⟨"M", "1.0", [], [], [], []⟩ }

/-- The collector state a `StepOut` continues from. -/
def outState : StepOut → CollectorState
  | .next s => s
  | .inc s _ => s

/-- The calling-convention invariant of C9: every free function in the
model carries `"winapi"` and every function-pointer type carries code
1. -/
def callConvInv (st : CollectorState) : Prop :=
  ∀ m, st.meta = some m →
    (∀ f ∈ m.funcs, f.call_conv = "winapi") ∧
    (∀ p ∈ m.func_ptrs, p.call_conv_int = 1)

/-! Supporting lemmas about the little-endian encoder. -/

theorem leBytes_length (B : Nat) : ∀ n, (leBytes n B).length = B := by
  induction B with
  | zero => intro n; rfl
  | succ B ih => intro n; simp [leBytes, ih]

theorem decodeLE_leBytes (B : Nat) : ∀ n, decodeLE (leBytes n B) = n % 256 ^ B := by
  induction B with
  | zero => intro n; simp [leBytes, decodeLE, Nat.mod_one]
  | succ B ih =>
    intro n
    have h256 : (256 : Nat) ^ (B + 1) = 256 * 256 ^ B := pow_succ' 256 B
    rw [leBytes, decodeLE, ih, h256, Nat.mod_mul]

theorem leBytes_getLast (B : Nat) :
    ∀ n, (leBytes n (B + 1)).getLast? = some (n / 256 ^ B % 256) := by
  induction B with
  | zero => intro n; simp [leBytes]
  | succ B ih =>
    intro n
    have expand : leBytes n (B + 2) =
        n % 256 :: ((n / 256) % 256 :: leBytes (n / 256 / 256) B) := rfl
    have expand2 : leBytes (n / 256) (B + 1) =
        (n / 256) % 256 :: leBytes (n / 256 / 256) B := rfl
    rw [expand, List.getLast?_cons_cons, ← expand2, ih (n / 256),
      Nat.div_div_eq_div_mul, ← pow_succ' 256 B]

/-! Supporting lemmas about the compressed length prefix. -/

theorem and_mask_3F (y : Nat) : y &&& 0x3F = y % 64 := by
  have := Nat.and_pow_two_sub_one_eq_mod y 6
  norm_num at this
  exact this

theorem and_mask_1F (y : Nat) : y &&& 0x1F = y % 32 := by
  have := Nat.and_pow_two_sub_one_eq_mod y 5
  norm_num at this
  exact this

theorem and_mask_FF (y : Nat) : y &&& 0xFF = y % 256 := by
  have := Nat.and_pow_two_sub_one_eq_mod y 8
  norm_num at this
  exact this

theorem or_80_of_le (y : Nat) (h : y ≤ 0x3F) : y ||| 0x80 = 0x80 + y := by
  interval_cases y <;> rfl

theorem or_C0_of_le (y : Nat) (h : y ≤ 0x1F) : y ||| 0xC0 = 0xC0 + y := by
  interval_cases y <;> rfl

theorem ser_two_byte_hi {L : Nat} (h2 : L ≤ 0x3FFF) :
    ((L >>> 8) &&& 0x3F) ||| 0x80 = 0x80 + L / 0x100 := by
  have e1 : L >>> 8 = L / 256 := by rw [Nat.shiftRight_eq_div_pow]
  have hb : L / 256 ≤ 0x3F := by
    calc L / 256 ≤ 0x3FFF / 256 := Nat.div_le_div_right h2
    _ = 0x3F := by norm_num
  rw [e1, and_mask_3F, Nat.mod_eq_of_lt (by omega), or_80_of_le _ hb]

theorem ser_four_byte_hi {L : Nat} (h : L ≤ 0x1FFFFFFF) :
    ((L >>> 24) &&& 0x1F) ||| 0xC0 = 0xC0 + L / 0x1000000 := by
  have e1 : L >>> 24 = L / 0x1000000 := by rw [Nat.shiftRight_eq_div_pow]
  have hb : L / 0x1000000 ≤ 0x1F := by
    calc L / 0x1000000 ≤ 0x1FFFFFFF / 0x1000000 := Nat.div_le_div_right h
    _ = 0x1F := by norm_num
  rw [e1, and_mask_1F, Nat.mod_eq_of_lt (by omega), or_C0_of_le _ hb]

theorem ser_mid_byte (L k : Nat) : (L >>> k) &&& 0xFF = L / 2 ^ k % 256 := by
  rw [Nat.shiftRight_eq_div_pow, and_mask_FF]

/-- C6: for all non-negative `N` and byte counts `B` with `N < 256 ^ B`,
the little-endian fixed-width encoder emits exactly `B` bytes with the
most-significant byte last, decoding them as a little-endian unsigned
integer returns `N`, and encoding fails whenever `N` does not fit in
`B` bytes unsigned. -/
theorem C6_le_fixed_width_roundtrip (N B : Nat) :
    (N < 256 ^ B →
      int_to_bytes_le N B = .ok (leBytes N B) ∧
      (leBytes N B).length = B ∧
      decodeLE (leBytes N B) = N ∧
      (1 ≤ B → (leBytes N B).getLast? = some (N / 256 ^ (B - 1)))) ∧
    (256 ^ B ≤ N → int_to_bytes_le N B = .error "int too big to convert") := by
  constructor
  · intro hlt
    refine ⟨by simp [int_to_bytes_le, hlt], leBytes_length B N, ?_, ?_⟩
    · rw [decodeLE_leBytes, Nat.mod_eq_of_lt hlt]
    · intro hB
      obtain ⟨B2, rfl⟩ : ∃ B2, B = B2 + 1 := ⟨B - 1, by omega⟩
      have hp : 0 < 256 ^ B2 := Nat.pos_pow_of_pos B2 (by norm_num)
      have hlt2 : N < 256 * 256 ^ B2 := by
        have h2 := hlt
        rw [pow_succ'] at h2
        exact h2
      have hdiv : N / 256 ^ B2 < 256 := (Nat.div_lt_iff_lt_mul hp).mpr hlt2
      rw [leBytes_getLast, Nat.mod_eq_of_lt hdiv]
      simp
  · intro hge
    simp [int_to_bytes_le, Nat.not_lt_of_le hge]

/-- C6 witness: a concrete round trip at `N = 0x1234`, `B = 2`, and a
concrete failure at `N = 256 ^ 2`. -/
theorem C6_le_fixed_width_roundtrip_witness :
    (int_to_bytes_le 0x1234 2 = .ok [0x34, 0x12] ∧
     decodeLE [0x34, 0x12] = 0x1234) ∧
    int_to_bytes_le 0x10000 2 = .error "int too big to convert" := by
  have h1 := (C6_le_fixed_width_roundtrip 0x1234 2).1 (by norm_num)
  have h2 := (C6_le_fixed_width_roundtrip 0x10000 2).2 (by norm_num)
  refine ⟨⟨?_, ?_⟩, h2⟩
  · have := h1.1
    simpa using this
  · have := h1.2.2.1
    simpa using this

/-- C5: the compressed-form encoder agrees with the three-tier
specification over the UTF-8 byte length, and each tier has the stated
prefix width and top bits: one byte below `0x80`; two bytes whose first
byte lies in `[0x80, 0xC0)`; four bytes whose first byte lies in
`[0xC0, 0xE0)`; failure past `0x1FFFFFFF`. -/
theorem C5_ser_string_compressed (s : String) :
    ser_string_bytes s = serStringSpecBytes (strUtf8 s) ∧
    ((strUtf8 s).length ≤ 0x7F →
      ser_string_bytes s = .ok ((strUtf8 s).length :: strUtf8 s) ∧
      (strUtf8 s).length < 0x80) ∧
    (0x7F < (strUtf8 s).length → (strUtf8 s).length ≤ 0x3FFF →
      ser_string_bytes s =
        .ok ((0x80 + (strUtf8 s).length / 0x100) ::
             ((strUtf8 s).length % 0x100) :: strUtf8 s) ∧
      0x80 ≤ 0x80 + (strUtf8 s).length / 0x100 ∧
      0x80 + (strUtf8 s).length / 0x100 < 0xC0) ∧
    (0x3FFF < (strUtf8 s).length → (strUtf8 s).length ≤ 0x1FFFFFFF →
      ser_string_bytes s =
        .ok ((0xC0 + (strUtf8 s).length / 0x1000000) ::
             ((strUtf8 s).length / 0x10000 % 0x100) ::
             ((strUtf8 s).length / 0x100 % 0x100) ::
             ((strUtf8 s).length % 0x100) :: strUtf8 s) ∧
      0xC0 ≤ 0xC0 + (strUtf8 s).length / 0x1000000 ∧
      0xC0 + (strUtf8 s).length / 0x1000000 < 0xE0) ∧
    (0x1FFFFFFF < (strUtf8 s).length →
      ser_string_bytes s = .error "text too long for SerString") := by
  have main : ser_string_bytes s = serStringSpecBytes (strUtf8 s) := by
    unfold ser_string_bytes serStringSpecBytes
    by_cases h1 : (strUtf8 s).length ≤ 0x7F
    · simp [h1]
    · by_cases h2 : (strUtf8 s).length ≤ 0x3FFF
      · simp only [h1, h2, if_true, if_false]
        rw [ser_two_byte_hi h2, Nat.shiftRight_zero, and_mask_FF]
      · by_cases h3 : (strUtf8 s).length ≤ 0x1FFFFFFF
        · simp only [h1, h2, h3, if_true, if_false]
          rw [ser_four_byte_hi h3, ser_mid_byte _ 16, ser_mid_byte _ 8,
            Nat.shiftRight_zero, and_mask_FF]
          norm_num
        · simp [h1, h2, h3]
  refine ⟨main, ?_, ?_, ?_, ?_⟩
  · intro h1
    rw [main]
    unfold serStringSpecBytes
    simp [h1]
    omega
  · intro h1 h2
    have hb : (strUtf8 s).length / 0x100 ≤ 0x3F := by
      calc (strUtf8 s).length / 0x100 ≤ 0x3FFF / 0x100 := Nat.div_le_div_right h2
      _ = 0x3F := by norm_num
    refine ⟨?_, by omega, by omega⟩
    rw [main]
    unfold serStringSpecBytes
    simp [Nat.not_le.mpr h1, h2]
  · intro h2 h3
    have hb : (strUtf8 s).length / 0x1000000 ≤ 0x1F := by
      calc (strUtf8 s).length / 0x1000000 ≤ 0x1FFFFFFF / 0x1000000 :=
        Nat.div_le_div_right h3
      _ = 0x1F := by norm_num
    refine ⟨?_, by omega, by omega⟩
    rw [main]
    unfold serStringSpecBytes
    simp [Nat.not_le.mpr (by omega : (0x7F : Nat) < (strUtf8 s).length),
      Nat.not_le.mpr h2, h3]
  · intro h3
    rw [main]
    unfold serStringSpecBytes
    simp [Nat.not_le.mpr (by omega : (0x7F : Nat) < (strUtf8 s).length),
      Nat.not_le.mpr (by omega : (0x3FFF : Nat) < (strUtf8 s).length),
      Nat.not_le.mpr h3]

set_option maxRecDepth 20000 in
/-- C5 witness: a two-byte string stays in the one-byte tier, and a
128-byte string lands in the two-byte tier with first prefix byte
`0x80`. -/
theorem C5_ser_string_compressed_witness :
    ser_string_bytes "ab" = .ok (2 :: strUtf8 "ab") ∧
    ser_string_bytes ⟨List.replicate 128 'a'⟩ =
      .ok (0x80 :: 0x80 :: strUtf8 ⟨List.replicate 128 'a'⟩) := by
  constructor
  · have h := (C5_ser_string_compressed "ab").2.1 (by decide)
    simpa using h.1
  · have hlen : (strUtf8 ⟨List.replicate 128 'a'⟩).length = 128 := by decide
    have h := (C5_ser_string_compressed ⟨List.replicate 128 'a'⟩).2.2.1
      (by rw [hlen]; norm_num) (by rw [hlen]; norm_num)
    have := h.1
    rw [hlen] at this
    simpa using this

set_option maxRecDepth 20000 in
/-- C1 counterexample: the Pascal-form encoder's length byte is the
*character* count, not the UTF-8 byte count.  For `"é"` the encoder
accepts and emits length byte 1 followed by the two UTF-8 bytes, so the
output is not one length byte equal to the UTF-8 byte count followed by
those bytes; and for a 100-character string of `'é'` (200 UTF-8 bytes,
exceeding 127) the encoder succeeds instead of failing. -/
theorem C1_pascal_counterexample :
    pascal_str_bytes "é" = .ok [1, 0xC3, 0xA9] ∧
    (strUtf8 "é").length = 2 ∧
    pascal_str_bytes "é" ≠ .ok ((strUtf8 "é").length :: strUtf8 "é") ∧
    (strUtf8 ⟨List.replicate 100 'é'⟩).length = 200 ∧
    pascal_str_bytes ⟨List.replicate 100 'é'⟩ =
      .ok (100 :: strUtf8 ⟨List.replicate 100 'é'⟩) := by
  refine ⟨by decide, by decide, by decide, by decide, by decide⟩

/-- C1 (amended): the Pascal-form encoder emits one length byte equal to
the number of *characters* of the string followed by the string's UTF-8
bytes, and fails exactly when the character count exceeds 127; the empty
string yields the single zero byte and any 128-character string fails. -/
theorem C1_pascal_amended (s : String) :
    (s.data.length ≤ 127 → pascal_str_bytes s = .ok (s.data.length :: strUtf8 s)) ∧
    (127 < s.data.length →
      pascal_str_bytes s = .error "text too long for Pascal string") ∧
    pascal_str_bytes "" = .ok [0] ∧
    (s.data.length = 128 →
      pascal_str_bytes s = .error "text too long for Pascal string") := by
  refine ⟨?_, ?_, by decide, ?_⟩
  · intro h
    simp only [pascal_str_bytes]
    rw [if_neg (by omega : ¬ s.data.length > 127)]
  · intro h
    simp only [pascal_str_bytes]
    rw [if_pos (by omega : s.data.length > 127)]
  · intro h
    simp only [pascal_str_bytes]
    rw [if_pos (by omega : s.data.length > 127)]

/-! C2: header creation. -/

/-- C2 counterexample: `collect_path` accepts a second `meta`
declaration — the run succeeds and the header is replaced by the second
declaration, so the header-decl command does not fail when a header is
already set and the header is not created exactly once per run. -/
theorem C2_header_counterexample :
    collectPathFuel fsC2 2 "main" initState =
      .ok { meta := some ⟨"B", "2.0", [], [], [], []⟩, dll := none,
            iface := none, func := none, enum := none, all_dlls := [] } := by
  decide

/-- C2 (amended): every command other than `meta` fails with the
first-entry context error while no header exists, but a `meta`
declaration itself always succeeds given three fields and installs a
fresh header, replacing any existing one. -/
theorem C2_header_amended (path : String) (n : Nat) (st : CollectorState)
    (pieces : List String) :
    (st.meta = none → pieces.headD "" ≠ "meta" →
      dispatch path n st pieces =
        .error (.located path n "first entry must be \"meta\"")) ∧
    (∀ name version : String, ∃ st2,
      dispatch path n st ["meta", name, version] = .ok (.next st2) ∧
      st2.meta = some ⟨name, version, [], [], [], []⟩) := by
  constructor
  · intro h1 h2
    simp only [dispatch]
    rw [if_neg h2, h1]
  · intro name version
    cases hm : st.meta with
    | none =>
      exact ⟨{ st with meta := some ⟨name, version, [], [], [], []⟩ },
        by simp [dispatch, handleMeta, hm], rfl⟩
    | some old =>
      exact ⟨{ st with
               meta := some ⟨name, version, [], [], [], []⟩,
               func := st.func.map (deadifyFunc old),
               iface := st.iface.map (deadifyIface old),
               enum := st.enum.map (deadifyEnum old) },
        by simp [dispatch, handleMeta, hm], rfl⟩

/-- C2 witness: the amended statement applied to a `dll` line before any
header and to a `meta` line on a state whose header is already set. -/
theorem C2_header_amended_witness :
    dispatch "f" 1 initState ["dll", "x"] =
      .error (.located "f" 1 "first entry must be \"meta\"") ∧
    (∃ st2, dispatch "f" 2
        { initState with meta := some ⟨"A", "1.0", [], [], [], []⟩ }
        ["meta", "B", "2.0"] = .ok (.next st2) ∧
      st2.meta = some ⟨"B", "2.0", [], [], [], []⟩) :=
  ⟨(C2_header_amended "f" 1 initState ["dll", "x"]).1 rfl (by decide),
   (C2_header_amended "f" 2
     { initState with meta := some ⟨"A", "1.0", [], [], [], []⟩ }
     ["meta", "B", "2.0"]).2 "B" "2.0"⟩

set_option maxRecDepth 20000 in
/-- C1 witness: the amended statement applied at `"abc"` and at a
128-character string. -/
theorem C1_pascal_amended_witness :
    pascal_str_bytes "abc" = .ok [3, 97, 98, 99] ∧
    pascal_str_bytes ⟨List.replicate 128 'a'⟩ =
      .error "text too long for Pascal string" := by
  constructor
  · have h := (C1_pascal_amended "abc").1 (by decide)
    simpa using h
  · exact (C1_pascal_amended ⟨List.replicate 128 'a'⟩).2.2.2 (by decide)

/-! Shared lemmas about the association-list and list-mutation
helpers. -/

theorem lookupAL_mem {α : Type} {l : List (String × α)} {k : String} {v : α}
    (h : lookupAL l k = some v) : (k, v) ∈ l := by
  induction l with
  | nil => simp [lookupAL] at h
  | cons hd tl ih =>
    obtain ⟨k2, v2⟩ := hd
    by_cases hk : k2 = k
    · subst hk
      simp [lookupAL] at h
      subst h
      exact List.mem_cons_self _ _
    · simp [lookupAL, hk] at h
      exact List.mem_cons_of_mem _ (ih h)

theorem mem_listModify {α : Type} {l : List α} {i : Nat} {g : α → α} {x : α}
    (h : x ∈ listModify l i g) : x ∈ l ∨ ∃ y, y ∈ l ∧ x = g y := by
  induction l generalizing i with
  | nil => simp [listModify] at h
  | cons hd tl ih =>
    cases i with
    | zero =>
      simp [listModify] at h
      rcases h with h | h
      · exact Or.inr ⟨hd, List.mem_cons_self _ _, h⟩
      · exact Or.inl (List.mem_cons_of_mem _ h)
    | succ n =>
      simp [listModify] at h
      rcases h with h | h
      · exact Or.inl (h ▸ List.mem_cons_self _ _)
      · rcases ih h with h2 | ⟨y, hy, hxy⟩
        · exact Or.inl (List.mem_cons_of_mem _ h2)
        · exact Or.inr ⟨y, List.mem_cons_of_mem _ hy, hxy⟩

theorem listModify_getD {α : Type} {l : List α} {i : Nat} {g : α → α}
    {d : α} (h : i < l.length) :
    (listModify l i g).getD i d = g (l.getD i d) := by
  induction l generalizing i with
  | nil => simp at h
  | cons hd tl ih =>
    cases i with
    | zero => rfl
    | succ n2 =>
      show (listModify tl n2 g).getD n2 d = g (tl.getD n2 d)
      exact ih (by simpa using h)

theorem listModify_length {α : Type} (l : List α) (i : Nat) (g : α → α) :
    (listModify l i g).length = l.length := by
  induction l generalizing i with
  | nil => simp [listModify]
  | cons hd tl ih =>
    cases i with
    | zero => simp [listModify]
    | succ n => simp [listModify, ih]

/-! Shared characterizations of the `arg`/`oarg` dispatch, used by
several claims below. -/

/-- Successful dispatch of a five-field argument line: the argument is
constructed with the type reference enriched against the model *as it
is before the line executes* and appended through the function slot. -/
theorem dispatch_arg5_ok (path : String) (n : Nat) (st : CollectorState)
    (m : Metadata) (t : FuncTarget) (cmd dirS nm tyS starsS : String)
    (d : ArgumentDirection) (k : Int)
    (hc : cmd = "arg" ∨ cmd = "oarg")
    (hm : st.meta = some m) (hf : st.func = some t)
    (hk : pyParseInt starsS = .ok k) (hk0 : 0 ≤ k)
    (hd : directionOf dirS = some d) :
    dispatch path n st [cmd, dirS, nm, tyS, starsS] =
      .ok (.next (appendArgToFunc st t
        ⟨nm, MetaType.enrich_base_enum ⟨tyS, k.toNat, none⟩ m, d,
         cmd == "oarg", ⟨false, false⟩, none, none⟩)) := by
  have hknn : ¬ (k < 0) := Int.not_lt.mpr hk0
  have hnil : pyStripChars [] = [] := rfl
  rcases hc with rfl | rfl <;>
    simp [dispatch, handleArg, hm, hf, hk, hd, hknn, hnil]

/-- Dispatch of a six-field argument line whose attribute field is
non-blank: conflicting count specs are rejected; otherwise the argument
records the extracted counts and attribute set. -/
theorem dispatch_arg6_ok (path : String) (n : Nat) (st : CollectorState)
    (m : Metadata) (t : FuncTarget) (cmd dirS nm tyS starsS attribsS : String)
    (d : ArgumentDirection) (k : Int) (ca cc : Option Nat)
    (rest : List String) (attrs : ArgAttribs)
    (hc : cmd = "arg" ∨ cmd = "oarg")
    (hm : st.meta = some m) (hf : st.func = some t)
    (hk : pyParseInt starsS = .ok k) (hk0 : 0 ≤ k)
    (hd : directionOf dirS = some d)
    (hns : ¬ pyStripChars attribsS.data = [])
    (hec : extractCounts (splitAttribWords attribsS) = (ca, cc, rest))
    (hat : attribsOf rest = .ok attrs) :
    (ca.isSome ∧ cc.isSome →
      dispatch path n st [cmd, dirS, nm, tyS, starsS, attribsS] =
        .error (.bare
          "count_in_arg and const_count must not be set simultaneously")) ∧
    (¬ (ca.isSome ∧ cc.isSome) →
      dispatch path n st [cmd, dirS, nm, tyS, starsS, attribsS] =
        .ok (.next (appendArgToFunc st t
          ⟨nm, MetaType.enrich_base_enum ⟨tyS, k.toNat, none⟩ m, d,
           cmd == "oarg", attrs, ca, cc⟩))) := by
  have hknn : ¬ (k < 0) := Int.not_lt.mpr hk0
  constructor
  · intro hboth
    obtain ⟨hb1, hb2⟩ := hboth
    rcases hc with rfl | rfl <;>
      simp [dispatch, handleArg, hm, hf, hk, hd, hns, hec, hat, hknn,
        Except.map, hb1, hb2]
  · intro hnotboth
    rcases hc with rfl | rfl <;>
      simp [dispatch, handleArg, hm, hf, hk, hd, hns, hec, hat, hknn,
        Except.map, hnotboth]

/-- C8: every `arg`/`oarg` declaration (with a well-formed field count)
issued while the function-like slot is absent fails with the context
error naming the file and line; the run aborts there, so the model is
left unchanged. -/
theorem C8_arg_requires_func_context :
    ∀ (path : String) (n : Nat) (st : CollectorState) (m : Metadata)
      (cmd dirS nm tyS starsS attribsS : String),
      st.meta = some m → st.func = none → (cmd = "arg" ∨ cmd = "oarg") →
      dispatch path n st [cmd, dirS, nm, tyS, starsS] =
        .error (.located path n
          "\"arg\" entry without a previous \"func\" or \"fptr\" entry") ∧
      dispatch path n st [cmd, dirS, nm, tyS, starsS, attribsS] =
        .error (.located path n
          "\"arg\" entry without a previous \"func\" or \"fptr\" entry") := by
  intro path n st m cmd dirS nm tyS starsS attribsS hm hf hc
  rcases hc with rfl | rfl <;>
    exact ⟨by simp [dispatch, handleArg, hm, hf],
           by simp [dispatch, handleArg, hm, hf]⟩

/-- C8 witness: an `arg` line and an `oarg` line on a state with a
header but no function-like context. -/
theorem C8_arg_requires_func_context_witness :
    dispatch "f" 3 stM ["arg", "in", "x", "T", "0"] =
      .error (.located "f" 3
        "\"arg\" entry without a previous \"func\" or \"fptr\" entry") ∧
    dispatch "f" 4 stM ["oarg", "in", "x", "T", "0", "const"] =
      .error (.located "f" 4
        "\"arg\" entry without a previous \"func\" or \"fptr\" entry") :=
  ⟨(C8_arg_requires_func_context "f" 3 stM ⟨"M", "1.0", [], [], [], []⟩
      "arg" "in" "x" "T" "0" "" rfl rfl (Or.inl rfl)).1,
   (C8_arg_requires_func_context "f" 4 stM ⟨"M", "1.0", [], [], [], []⟩
      "oarg" "in" "x" "T" "0" "const" rfl rfl (Or.inr rfl)).2⟩

/-- C7: an argument declaration whose attribute word set yields both a
`ca<N>` and a `cc<N>` count spec is rejected with an error, while a
declaration yielding at most one of the two is accepted and records
that single array-size spec on the argument. -/
theorem C7_count_specs_mutually_exclusive :
    ∀ (path : String) (n : Nat) (st : CollectorState) (m : Metadata)
      (t : FuncTarget) (cmd dirS nm tyS starsS attribsS : String)
      (d : ArgumentDirection) (k : Int) (ca cc : Option Nat)
      (rest : List String) (attrs : ArgAttribs) (x y : Nat),
      (cmd = "arg" ∨ cmd = "oarg") →
      st.meta = some m → st.func = some t →
      pyParseInt starsS = .ok k → 0 ≤ k →
      directionOf dirS = some d →
      ¬ pyStripChars attribsS.data = [] →
      extractCounts (splitAttribWords attribsS) = (ca, cc, rest) →
      attribsOf rest = .ok attrs →
      (ca = some x → cc = some y →
        dispatch path n st [cmd, dirS, nm, tyS, starsS, attribsS] =
          .error (.bare
            "count_in_arg and const_count must not be set simultaneously")) ∧
      (cc = none →
        dispatch path n st [cmd, dirS, nm, tyS, starsS, attribsS] =
          .ok (.next (appendArgToFunc st t
            ⟨nm, MetaType.enrich_base_enum ⟨tyS, k.toNat, none⟩ m, d,
             cmd == "oarg", attrs, ca, none⟩))) ∧
      (ca = none →
        dispatch path n st [cmd, dirS, nm, tyS, starsS, attribsS] =
          .ok (.next (appendArgToFunc st t
            ⟨nm, MetaType.enrich_base_enum ⟨tyS, k.toNat, none⟩ m, d,
             cmd == "oarg", attrs, none, cc⟩))) := by
  intro path n st m t cmd dirS nm tyS starsS attribsS d k ca cc rest attrs x y
    hc hm hf hk hk0 hd hns hec hat
  have h6 := dispatch_arg6_ok path n st m t cmd dirS nm tyS starsS attribsS
    d k ca cc rest attrs hc hm hf hk hk0 hd hns hec hat
  refine ⟨?_, ?_, ?_⟩
  · intro hx hy
    exact h6.1 (by simp [hx, hy])
  · intro hcc
    subst hcc
    exact h6.2 (by simp)
  · intro hca
    subst hca
    exact h6.2 (by simp)

/-- C7 witness: on a state with a live function-pointer context,
`ca1 cc2` is rejected and `const ca3` is accepted, recording the single
count-by-index spec. -/
theorem C7_count_specs_mutually_exclusive_witness :
    dispatch "f" 1 stC9 ["arg", "in", "buf", "BYTE", "1", "ca1 cc2"] =
      .error (.bare
        "count_in_arg and const_count must not be set simultaneously") ∧
    dispatch "f" 1 stC9 ["arg", "in", "buf", "BYTE", "1", "const ca3"] =
      .ok (.next (appendArgToFunc stC9 (.liveFptr 0)
        ⟨"buf", MetaType.enrich_base_enum ⟨"BYTE", 1, none⟩ mC9, .IN,
         "arg" == "oarg", ⟨true, false⟩, some 3, none⟩)) :=
  ⟨(C7_count_specs_mutually_exclusive "f" 1 stC9 mC9 (.liveFptr 0)
      "arg" "in" "buf" "BYTE" "1" "ca1 cc2" .IN 1 (some 1) (some 2) []
      ⟨false, false⟩ 1 2 (Or.inl rfl) rfl rfl (by decide) (by decide) rfl
      (by decide) (by decide) (by decide)).1 rfl rfl,
   (C7_count_specs_mutually_exclusive "f" 1 stC9 mC9 (.liveFptr 0)
      "arg" "in" "buf" "BYTE" "1" "const ca3" .IN 1 (some 3) none ["const"]
      ⟨true, false⟩ 0 0 (Or.inl rfl) rfl rfl (by decide) (by decide) rfl
      (by decide) (by decide) (by decide)).2.1 rfl⟩

/-- C3: enrichment of a freshly constructed depth-0 reference computes
its output type name and, when that name is a key of the enumeration
dict built so far, rewrites base name and depth to the enumeration's
base type and records the enumeration's name; deeper references and
unmatched names are left unchanged.  A recorded link always names an
enumeration already present in the model, and the argument built by an
argument line is enriched against the model as it is *before* the line
runs, so a forward reference to an enumeration declared later never
resolves. -/
theorem C3_enrichment_rules :
    (∀ (mt : MetaType) (meta : Metadata), mt.stars ≠ 0 →
      MetaType.enrich_base_enum mt meta = mt) ∧
    (∀ (mt : MetaType) (meta : Metadata), mt.stars = 0 →
      lookupAL meta.name_to_enum (mt.il_type meta) = none →
      MetaType.enrich_base_enum mt meta = mt) ∧
    (∀ (mt : MetaType) (meta : Metadata) (en : Enumeration), mt.stars = 0 →
      lookupAL meta.name_to_enum (mt.il_type meta) = some en →
      MetaType.enrich_base_enum mt meta =
        ⟨en.base_type.name, en.base_type.stars, some en.name⟩) ∧
    (∀ (mt : MetaType) (meta : Metadata) (E : String), mt.base_enum = none →
      (MetaType.enrich_base_enum mt meta).base_enum = some E →
      ∃ key en, (key, en) ∈ meta.name_to_enum ∧ en.name = E) ∧
    (∀ (path : String) (n : Nat) (st : CollectorState) (m : Metadata)
       (t : FuncTarget) (cmd dirS nm tyS starsS : String)
       (d : ArgumentDirection) (k : Int),
      (cmd = "arg" ∨ cmd = "oarg") →
      st.meta = some m → st.func = some t →
      pyParseInt starsS = .ok k → 0 ≤ k → directionOf dirS = some d →
      dispatch path n st [cmd, dirS, nm, tyS, starsS] =
        .ok (.next (appendArgToFunc st t
          ⟨nm, MetaType.enrich_base_enum ⟨tyS, k.toNat, none⟩ m, d,
           cmd == "oarg", ⟨false, false⟩, none, none⟩))) := by
  refine ⟨?_, ?_, ?_, ?_, ?_⟩
  · intro mt meta h
    simp [MetaType.enrich_base_enum, h]
  · intro mt meta h0 hlk
    simp [MetaType.enrich_base_enum, h0, hlk]
  · intro mt meta en h0 hlk
    simp [MetaType.enrich_base_enum, h0, hlk]
  · intro mt meta E h0 hE
    unfold MetaType.enrich_base_enum at hE
    by_cases hs : mt.stars ≠ 0
    · rw [if_pos hs] at hE
      rw [h0] at hE
      simp at hE
    · rw [if_neg hs] at hE
      cases hlk : lookupAL meta.name_to_enum (mt.il_type meta) with
      | none =>
        rw [hlk] at hE
        rw [h0] at hE
        simp at hE
      | some en =>
        rw [hlk] at hE
        simp at hE
        exact ⟨mt.il_type meta, en, lookupAL_mem hlk, hE⟩
  · intro path n st m t cmd dirS nm tyS starsS d k hc hm hf hk hk0 hd
    exact dispatch_arg5_ok path n st m t cmd dirS nm tyS starsS d k
      hc hm hf hk hk0 hd

/-- C3 witness: a depth-1 reference is untouched, a depth-0 reference
matching the enumeration `E` is rewritten to `uint32` with backing link
`E`, and an argument line is dispatched with enrichment against the
pre-line model. -/
theorem C3_enrichment_rules_witness :
    MetaType.enrich_base_enum ⟨"T", 1, none⟩ mE = ⟨"T", 1, none⟩ ∧
    MetaType.enrich_base_enum ⟨"E", 0, none⟩ mE = ⟨"uint32", 0, some "E"⟩ ∧
    dispatch "f" 1 stC9 ["arg", "in", "x", "E", "0"] =
      .ok (.next (appendArgToFunc stC9 (.liveFptr 0)
        ⟨"x", MetaType.enrich_base_enum ⟨"E", 0, none⟩ mC9, .IN,
         "arg" == "oarg", ⟨false, false⟩, none, none⟩)) :=
  ⟨C3_enrichment_rules.1 ⟨"T", 1, none⟩ mE (by decide),
   by
    have h := C3_enrichment_rules.2.2.1 ⟨"E", 0, none⟩ mE enE rfl (by decide)
    simpa using h,
   C3_enrichment_rules.2.2.2.2 "f" 1 stC9 mC9 (.liveFptr 0) "arg" "in" "x"
     "E" "0" .IN 0 (Or.inl rfl) rfl rfl (by decide) (by decide) rfl⟩

/-- C10: the standard-method shorthand appends a method and sets the
function-like slot to it, exactly as a full method declaration does;
a subsequent argument declaration therefore appends to that shorthand
method, so the method is zero-argument only at creation. -/
theorem C10_smet_sets_function_slot :
    (∀ (path : String) (n : Nat) (st : CollectorState) (m : Metadata)
       (i : Nat) (nm : String),
      st.meta = some m → st.iface = some (.live i) →
      dispatch path n st ["smet", nm] =
        .ok (.next (appendMethodToIface st (.live i)
          ⟨nm, ⟨"HRESULT", 0, none⟩, []⟩)) ∧
      (appendMethodToIface st (.live i) ⟨nm, ⟨"HRESULT", 0, none⟩, []⟩).func =
        some (.liveMethod i (m.interfaces.getD i defaultIface).methods.length)) ∧
    (∀ (path : String) (n : Nat) (st : CollectorState) (m : Metadata)
       (i : Nat) (nm tyS starsS : String) (k : Int),
      st.meta = some m → st.iface = some (.live i) →
      pyParseInt starsS = .ok k → 0 ≤ k →
      dispatch path n st ["meth", nm, tyS, starsS] =
        .ok (.next (appendMethodToIface st (.live i)
          ⟨nm, MetaType.enrich_base_enum ⟨tyS, k.toNat, none⟩ m, []⟩)) ∧
      (appendMethodToIface st (.live i)
          ⟨nm, MetaType.enrich_base_enum ⟨tyS, k.toNat, none⟩ m, []⟩).func =
        some (.liveMethod i (m.interfaces.getD i defaultIface).methods.length)) ∧
    (∀ (path : String) (n : Nat) (st : CollectorState) (m : Metadata)
       (i j : Nat) (cmd dirS nm tyS starsS : String)
       (d : ArgumentDirection) (k : Int),
      (cmd = "arg" ∨ cmd = "oarg") →
      st.meta = some m → st.func = some (.liveMethod i j) →
      i < m.interfaces.length →
      j < (m.interfaces.getD i defaultIface).methods.length →
      pyParseInt starsS = .ok k → 0 ≤ k → directionOf dirS = some d →
      dispatch path n st [cmd, dirS, nm, tyS, starsS] =
        .ok (.next (appendArgToFunc st (.liveMethod i j)
          ⟨nm, MetaType.enrich_base_enum ⟨tyS, k.toNat, none⟩ m, d,
           cmd == "oarg", ⟨false, false⟩, none, none⟩)) ∧
      methodArgsAt (appendArgToFunc st (.liveMethod i j)
          ⟨nm, MetaType.enrich_base_enum ⟨tyS, k.toNat, none⟩ m, d,
           cmd == "oarg", ⟨false, false⟩, none, none⟩) i j =
        methodArgsAt st i j ++
          [⟨nm, MetaType.enrich_base_enum ⟨tyS, k.toNat, none⟩ m, d,
            cmd == "oarg", ⟨false, false⟩, none, none⟩]) := by
  refine ⟨?_, ?_, ?_⟩
  · intro path n st m i nm hm hif
    constructor
    · simp [dispatch, handleSmet, hm, hif]
    · simp [appendMethodToIface, hm]
  · intro path n st m i nm tyS starsS k hm hif hk hk0
    have hknn : ¬ (k < 0) := Int.not_lt.mpr hk0
    constructor
    · simp [dispatch, handleMeth, hm, hif, hk, hknn]
    · simp [appendMethodToIface, hm]
  · intro path n st m i j cmd dirS nm tyS starsS d k hc hm hf hi hj hk hk0 hd
    constructor
    · exact dispatch_arg5_ok path n st m (.liveMethod i j) cmd dirS nm tyS
        starsS d k hc hm hf hk hk0 hd
    · unfold methodArgsAt appendArgToFunc
      simp only [hm, Option.map_some', Option.getD_some]
      rw [listModify_getD hi, listModify_getD hj]

/-- C10 witness: dispatching `smet Do` on a state with one empty
interface sets the function slot to the new method, and a following
`arg` line appends the argument to that method. -/
theorem C10_smet_sets_function_slot_witness :
    dispatch "f" 3 stPre ["smet", "Do"] =
      .ok (.next (appendMethodToIface stPre (.live 0)
        ⟨"Do", ⟨"HRESULT", 0, none⟩, []⟩)) ∧
    stSm.func = some (.liveMethod 0 0) ∧
    dispatch "f" 4 stSm ["arg", "in", "count", "UINT32", "0"] =
      .ok (.next (appendArgToFunc stSm (.liveMethod 0 0)
        ⟨"count", MetaType.enrich_base_enum ⟨"UINT32", 0, none⟩
          (stSm.meta.getD emptyMeta), .IN, "arg" == "oarg",
         ⟨false, false⟩, none, none⟩)) ∧
    methodArgsAt (appendArgToFunc stSm (.liveMethod 0 0)
        ⟨"count", MetaType.enrich_base_enum ⟨"UINT32", 0, none⟩
          (stSm.meta.getD emptyMeta), .IN, "arg" == "oarg",
         ⟨false, false⟩, none, none⟩) 0 0 =
      methodArgsAt stSm 0 0 ++
        [⟨"count", MetaType.enrich_base_enum ⟨"UINT32", 0, none⟩
           (stSm.meta.getD emptyMeta), .IN, "arg" == "oarg",
          ⟨false, false⟩, none, none⟩] := by
  have h1 := (C10_smet_sets_function_slot.1 "f" 3 stPre mPre 0 "Do" rfl rfl).1
  have h2 : stSm.func = some (.liveMethod 0 0) := by decide
  have h3 := C10_smet_sets_function_slot.2.2 "f" 4 stSm
    (stSm.meta.getD emptyMeta) 0 0 "arg" "in" "count" "UINT32" "0" .IN 0
    (Or.inl rfl) (by decide) (by decide) (by decide) (by decide) (by decide)
    (by decide) rfl
  exact ⟨h1, h2, h3.1, h3.2⟩

set_option maxRecDepth 4000 in
/-- C4 counterexample: the `smet` shorthand constructs its `HRESULT`
return type *without* invoking enrichment.  With an enumeration named
exactly the output type name of `HRESULT` declared first, the method
created by `smet` carries an unenriched return type (`base_enum = none`)
in the final model, although enrichment at construction time would have
rewritten it — so not every newly created return-type reference is
enriched at construction. -/
theorem C4_smet_counterexample :
    collectPathFuel fsC4 2 "main" initState = .ok stC4 ∧
    (((stC4.meta.getD emptyMeta).interfaces.getD 0 defaultIface).methods.getD
        0 defaultMethod).return_type = ⟨"HRESULT", 0, none⟩ ∧
    MetaType.enrich_base_enum ⟨"HRESULT", 0, none⟩ (stC4.meta.getD emptyMeta) =
      ⟨"uint32", 0,
       some "valuetype [Windows.Win32.winmd]Windows.Win32.Foundation.HRESULT"⟩ ∧
    MetaType.enrich_base_enum ⟨"HRESULT", 0, none⟩ (stC4.meta.getD emptyMeta) ≠
      ⟨"HRESULT", 0, none⟩ := by
  refine ⟨by decide, by decide, by decide, by decide⟩

/-- C4 (amended): every newly created return-type and argument-type
reference — those built by `fptr`, `fn`, `meth` and `arg`/`oarg`
declarations — is enriched exactly once, at construction, against the
model as it is when the declaration runs, *except* the standard-method
shorthand `smet`, whose fixed `HRESULT` return type is constructed
without enrichment. -/
theorem C4_enrich_at_construction_amended :
    (∀ (path : String) (n : Nat) (st : CollectorState) (m : Metadata)
       (nm tyS starsS : String) (k : Int),
      st.meta = some m → pyParseInt starsS = .ok k → 0 ≤ k →
      dispatch path n st ["fptr", nm, tyS, starsS] =
        .ok (.next { st with
          meta := some { m with func_ptrs := m.func_ptrs ++
            [⟨nm, MetaType.enrich_base_enum ⟨tyS, k.toNat, none⟩ m, 1, []⟩] },
          func := some (.liveFptr m.func_ptrs.length) })) ∧
    (∀ (path : String) (n : Nat) (st : CollectorState) (m : Metadata)
       (dl nm tyS starsS : String) (k : Int),
      st.meta = some m → st.dll = some dl → pyParseInt starsS = .ok k → 0 ≤ k →
      dispatch path n st ["fn", nm, tyS, starsS] =
        .ok (.next { st with
          meta := some { m with funcs := m.funcs ++
            [⟨dl, nm, MetaType.enrich_base_enum ⟨tyS, k.toNat, none⟩ m,
              "winapi", []⟩] },
          func := some (.liveFunc m.funcs.length) })) ∧
    (∀ (path : String) (n : Nat) (st : CollectorState) (m : Metadata)
       (t : IfaceTarget) (nm tyS starsS : String) (k : Int),
      st.meta = some m → st.iface = some t → pyParseInt starsS = .ok k → 0 ≤ k →
      dispatch path n st ["meth", nm, tyS, starsS] =
        .ok (.next (appendMethodToIface st t
          ⟨nm, MetaType.enrich_base_enum ⟨tyS, k.toNat, none⟩ m, []⟩))) ∧
    (∀ (path : String) (n : Nat) (st : CollectorState) (m : Metadata)
       (t : FuncTarget) (cmd dirS nm tyS starsS : String)
       (d : ArgumentDirection) (k : Int),
      (cmd = "arg" ∨ cmd = "oarg") →
      st.meta = some m → st.func = some t →
      pyParseInt starsS = .ok k → 0 ≤ k → directionOf dirS = some d →
      dispatch path n st [cmd, dirS, nm, tyS, starsS] =
        .ok (.next (appendArgToFunc st t
          ⟨nm, MetaType.enrich_base_enum ⟨tyS, k.toNat, none⟩ m, d,
           cmd == "oarg", ⟨false, false⟩, none, none⟩))) ∧
    (∀ (path : String) (n : Nat) (st : CollectorState) (m : Metadata)
       (t : IfaceTarget) (nm : String),
      st.meta = some m → st.iface = some t →
      dispatch path n st ["smet", nm] =
        .ok (.next (appendMethodToIface st t
          ⟨nm, ⟨"HRESULT", 0, none⟩, []⟩))) := by
  refine ⟨?_, ?_, ?_, ?_, ?_⟩
  · intro path n st m nm tyS starsS k hm hk hk0
    have hknn : ¬ (k < 0) := Int.not_lt.mpr hk0
    simp [dispatch, handleFptr, hm, hk, hknn]
  · intro path n st m dl nm tyS starsS k hm hdl hk hk0
    have hknn : ¬ (k < 0) := Int.not_lt.mpr hk0
    simp [dispatch, handleFn, hm, hdl, hk, hknn]
  · intro path n st m t nm tyS starsS k hm hif hk hk0
    have hknn : ¬ (k < 0) := Int.not_lt.mpr hk0
    simp [dispatch, handleMeth, hm, hif, hk, hknn]
  · intro path n st m t cmd dirS nm tyS starsS d k hc hm hf hk hk0 hd
    exact dispatch_arg5_ok path n st m t cmd dirS nm tyS starsS d k
      hc hm hf hk hk0 hd
  · intro path n st m t nm hm hif
    simp [dispatch, handleSmet, hm, hif]

/-- C4 witness: the amended statement applied concretely to `fptr`,
`fn`, `meth`, `arg` and `smet` lines. -/
theorem C4_enrich_at_construction_amended_witness :
    dispatch "f" 2 stM ["fptr", "P", "void", "0"] =
      .ok (.next { stM with
        meta := some { (⟨"M", "1.0", [], [], [], []⟩ : Metadata) with
          func_ptrs := [⟨"P", MetaType.enrich_base_enum ⟨"void", 0, none⟩
            ⟨"M", "1.0", [], [], [], []⟩, 1, []⟩] },
        func := some (.liveFptr 0) }) ∧
    dispatch "f" 3 stPre ["meth", "Go", "UINT32", "0"] =
      .ok (.next (appendMethodToIface stPre (.live 0)
        ⟨"Go", MetaType.enrich_base_enum ⟨"UINT32", 0, none⟩ mPre, []⟩)) ∧
    dispatch "f" 4 stPre ["smet", "Do"] =
      .ok (.next (appendMethodToIface stPre (.live 0)
        ⟨"Do", ⟨"HRESULT", 0, none⟩, []⟩)) :=
  ⟨C4_enrich_at_construction_amended.1 "f" 2 stM ⟨"M", "1.0", [], [], [], []⟩
     "P" "void" "0" 0 rfl (by decide) (by decide),
   C4_enrich_at_construction_amended.2.2.1 "f" 3 stPre mPre (.live 0)
     "Go" "UINT32" "0" 0 rfl rfl (by decide) (by decide),
   C4_enrich_at_construction_amended.2.2.2.2 "f" 4 stPre mPre (.live 0)
     "Do" rfl rfl⟩

/-! Preservation of the calling-convention invariant (C9) through every
collector step. -/

theorem callConvInv_appendArg (st : CollectorState) (t : FuncTarget)
    (a : Argument) (h : callConvInv st) :
    callConvInv (appendArgToFunc st t a) := by
  cases t with
  | liveFunc i =>
    intro m2 hm2
    cases hmeta : st.meta with
    | none => simp [appendArgToFunc, hmeta] at hm2
    | some m =>
      simp [appendArgToFunc, hmeta] at hm2
      obtain ⟨h1, h2⟩ := h m hmeta
      subst hm2
      refine ⟨?_, h2⟩
      intro f hf
      rcases mem_listModify hf with hf2 | ⟨y, hy, rfl⟩
      · exact h1 f hf2
      · exact h1 y hy
  | liveFptr i =>
    intro m2 hm2
    cases hmeta : st.meta with
    | none => simp [appendArgToFunc, hmeta] at hm2
    | some m =>
      simp [appendArgToFunc, hmeta] at hm2
      obtain ⟨h1, h2⟩ := h m hmeta
      subst hm2
      refine ⟨h1, ?_⟩
      intro p hp
      rcases mem_listModify hp with hp2 | ⟨y, hy, rfl⟩
      · exact h2 p hp2
      · exact h2 y hy
  | liveMethod i j =>
    intro m2 hm2
    cases hmeta : st.meta with
    | none => simp [appendArgToFunc, hmeta] at hm2
    | some m =>
      simp [appendArgToFunc, hmeta] at hm2
      obtain ⟨h1, h2⟩ := h m hmeta
      subst hm2
      exact ⟨h1, h2⟩
  | deadFunc f =>
    intro m2 hm2
    exact h m2 hm2
  | deadFptr f =>
    intro m2 hm2
    exact h m2 hm2
  | deadMethod me =>
    intro m2 hm2
    exact h m2 hm2

theorem callConvInv_appendMethod (st : CollectorState) (t : IfaceTarget)
    (me : Method) (h : callConvInv st) :
    callConvInv (appendMethodToIface st t me) := by
  cases t with
  | live i =>
    intro m2 hm2
    cases hmeta : st.meta with
    | none => simp [appendMethodToIface, hmeta] at hm2
    | some m =>
      simp [appendMethodToIface, hmeta] at hm2
      obtain ⟨h1, h2⟩ := h m hmeta
      subst hm2
      exact ⟨h1, h2⟩
  | dead ifc =>
    intro m2 hm2
    exact h m2 hm2

theorem callConvInv_handleMeta (path : String) (n : Nat)
    (st : CollectorState) (pieces : List String) (out : StepOut)
    (h : handleMeta path n st pieces = .ok out) :
    callConvInv (outState out) := by
  unfold handleMeta at h
  by_cases hlen : pieces.length ≠ 3
  · rw [if_pos hlen] at h
    simp at h
  · rw [if_neg hlen] at h
    cases hmeta : st.meta <;>
    · simp only [hmeta] at h
      injection h with h2
      subst h2
      intro m2 hm2
      simp [outState] at hm2
      subst hm2
      exact ⟨by simp, by simp⟩

theorem callConvInv_handleFptr (path : String) (n : Nat)
    (st : CollectorState) (m : Metadata) (pieces : List String)
    (out : StepOut) (hmeta : st.meta = some m)
    (h : handleFptr path n st m pieces = .ok out) (hinv : callConvInv st) :
    callConvInv (outState out) := by
  unfold handleFptr at h
  try simp only [] at h
  repeat' split at h
  all_goals simp at h
  subst h
  intro m2 hm2
  simp [outState] at hm2
  obtain ⟨h1, h2⟩ := hinv m hmeta
  subst hm2
  refine ⟨h1, ?_⟩
  intro p hp
  rcases List.mem_append.mp hp with hp2 | hp2
  · exact h2 p hp2
  · simp at hp2
    subst hp2
    rfl

theorem callConvInv_handleDll (path : String) (n : Nat)
    (st : CollectorState) (pieces : List String) (out : StepOut)
    (h : handleDll path n st pieces = .ok out) (hinv : callConvInv st) :
    callConvInv (outState out) := by
  unfold handleDll at h
  try simp only [] at h
  repeat' split at h
  all_goals simp at h
  all_goals subst h
  all_goals intro m2 hm2
  all_goals exact hinv m2 hm2

theorem callConvInv_handleFn (path : String) (n : Nat)
    (st : CollectorState) (m : Metadata) (pieces : List String)
    (out : StepOut) (hmeta : st.meta = some m)
    (h : handleFn path n st m pieces = .ok out) (hinv : callConvInv st) :
    callConvInv (outState out) := by
  unfold handleFn at h
  try simp only [] at h
  repeat' split at h
  all_goals simp at h
  subst h
  intro m2 hm2
  simp [outState] at hm2
  obtain ⟨h1, h2⟩ := hinv m hmeta
  subst hm2
  refine ⟨?_, h2⟩
  intro f hf
  rcases List.mem_append.mp hf with hf2 | hf2
  · exact h1 f hf2
  · simp at hf2
    subst hf2
    rfl

theorem callConvInv_handleArg (path : String) (n : Nat)
    (st : CollectorState) (m : Metadata) (pieces : List String)
    (out : StepOut)
    (h : handleArg path n st m pieces = .ok out) (hinv : callConvInv st) :
    callConvInv (outState out) := by
  unfold handleArg at h
  try simp only [] at h
  repeat' split at h
  all_goals simp at h
  all_goals subst h
  all_goals exact callConvInv_appendArg st _ _ hinv

theorem callConvInv_handleIface (path : String) (n : Nat)
    (st : CollectorState) (m : Metadata) (pieces : List String)
    (out : StepOut) (hmeta : st.meta = some m)
    (h : handleIface path n st m pieces = .ok out) (hinv : callConvInv st) :
    callConvInv (outState out) := by
  unfold handleIface at h
  try simp only [] at h
  repeat' split at h
  all_goals simp at h
  subst h
  intro m2 hm2
  simp [outState] at hm2
  obtain ⟨h1, h2⟩ := hinv m hmeta
  subst hm2
  exact ⟨h1, h2⟩

theorem callConvInv_handleMeth (path : String) (n : Nat)
    (st : CollectorState) (m : Metadata) (pieces : List String)
    (out : StepOut)
    (h : handleMeth path n st m pieces = .ok out) (hinv : callConvInv st) :
    callConvInv (outState out) := by
  unfold handleMeth at h
  try simp only [] at h
  repeat' split at h
  all_goals simp at h
  subst h
  exact callConvInv_appendMethod st _ _ hinv

theorem callConvInv_handleSmet (path : String) (n : Nat)
    (st : CollectorState) (pieces : List String) (out : StepOut)
    (h : handleSmet path n st pieces = .ok out) (hinv : callConvInv st) :
    callConvInv (outState out) := by
  unfold handleSmet at h
  try simp only [] at h
  repeat' split at h
  all_goals simp at h
  subst h
  exact callConvInv_appendMethod st _ _ hinv

theorem callConvInv_handleInc (path : String) (n : Nat)
    (st : CollectorState) (pieces : List String) (out : StepOut)
    (h : handleInc path n st pieces = .ok out) (hinv : callConvInv st) :
    callConvInv (outState out) := by
  unfold handleInc at h
  try simp only [] at h
  repeat' split at h
  all_goals simp at h
  subst h
  exact hinv

theorem callConvInv_handleEnum (path : String) (n : Nat)
    (st : CollectorState) (m : Metadata) (pieces : List String)
    (out : StepOut) (hmeta : st.meta = some m)
    (h : handleEnum path n st m pieces = .ok out) (hinv : callConvInv st) :
    callConvInv (outState out) := by
  unfold handleEnum at h
  try simp only [] at h
  repeat' split at h
  all_goals simp at h
  subst h
  intro m2 hm2
  simp [outState] at hm2
  obtain ⟨h1, h2⟩ := hinv m hmeta
  subst hm2
  exact ⟨h1, h2⟩

theorem callConvInv_handleVnt (path : String) (n : Nat)
    (st : CollectorState) (pieces : List String) (out : StepOut)
    (h : handleVnt path n st pieces = .ok out) (hinv : callConvInv st) :
    callConvInv (outState out) := by
  unfold handleVnt at h
  try simp only [] at h
  repeat' split at h
  all_goals simp at h
  all_goals subst h
  · -- live enumeration slot: only name_to_enum is updated
    intro m2 hm2
    cases hmeta2 : st.meta with
    | none => simp [outState, hmeta2] at hm2
    | some m3 =>
      simp [outState, hmeta2] at hm2
      obtain ⟨h1, h2⟩ := hinv m3 hmeta2
      subst hm2
      exact ⟨h1, h2⟩
  · -- dead enumeration slot: the model is untouched
    intro m2 hm2
    exact hinv m2 hm2

theorem callConvInv_dispatch (path : String) (n : Nat) (st : CollectorState)
    (pieces : List String) (out : StepOut)
    (h : dispatch path n st pieces = .ok out) (hinv : callConvInv st) :
    callConvInv (outState out) := by
  by_cases hc0 : pieces.head?.getD "" = "meta"
  · have hh : dispatch path n st pieces = handleMeta path n st pieces := by
      simp [dispatch, hc0]
    rw [hh] at h
    exact callConvInv_handleMeta path n st pieces out h
  · cases hmeta : st.meta with
    | none =>
      have hh : dispatch path n st pieces =
          .error (.located path n "first entry must be \"meta\"") := by
        simp [dispatch, hc0, hmeta]
      rw [hh] at h
      simp at h
    | some m =>
      by_cases hc1 : pieces.head?.getD "" = "fptr"
      · have hh : dispatch path n st pieces = handleFptr path n st m pieces := by
          simp [dispatch, hc0, hmeta, hc1]
        rw [hh] at h
        exact callConvInv_handleFptr path n st m pieces out hmeta h hinv
      · by_cases hc2 : pieces.head?.getD "" = "dll"
        · have hh : dispatch path n st pieces = handleDll path n st pieces := by
            simp [dispatch, hc0, hmeta, hc1, hc2]
          rw [hh] at h
          exact callConvInv_handleDll path n st pieces out h hinv
        · by_cases hc3 : pieces.head?.getD "" = "fn"
          · have hh : dispatch path n st pieces = handleFn path n st m pieces := by
              simp [dispatch, hc0, hmeta, hc1, hc2, hc3]
            rw [hh] at h
            exact callConvInv_handleFn path n st m pieces out hmeta h hinv
          · by_cases hc4 : pieces.head?.getD "" = "arg" ∨ pieces.head?.getD "" = "oarg"
            · have hh : dispatch path n st pieces = handleArg path n st m pieces := by
                simp [dispatch, hc0, hmeta, hc1, hc2, hc3, hc4]
              rw [hh] at h
              exact callConvInv_handleArg path n st m pieces out h hinv
            · by_cases hc5 : pieces.head?.getD "" = "iface"
              · have hh : dispatch path n st pieces = handleIface path n st m pieces := by
                  simp [dispatch, hc0, hmeta, hc1, hc2, hc3, hc4, hc5]
                rw [hh] at h
                exact callConvInv_handleIface path n st m pieces out hmeta h hinv
              · by_cases hc6 : pieces.head?.getD "" = "meth"
                · have hh : dispatch path n st pieces = handleMeth path n st m pieces := by
                    simp [dispatch, hc0, hmeta, hc1, hc2, hc3, hc4, hc5, hc6]
                  rw [hh] at h
                  exact callConvInv_handleMeth path n st m pieces out h hinv
                · by_cases hc7 : pieces.head?.getD "" = "smet"
                  · have hh : dispatch path n st pieces = handleSmet path n st pieces := by
                      simp [dispatch, hc0, hmeta, hc1, hc2, hc3, hc4, hc5, hc6, hc7]
                    rw [hh] at h
                    exact callConvInv_handleSmet path n st pieces out h hinv
                  · by_cases hc8 : pieces.head?.getD "" = "inc"
                    · have hh : dispatch path n st pieces = handleInc path n st pieces := by
                        simp [dispatch, hc0, hmeta, hc1, hc2, hc3, hc4, hc5, hc6, hc7, hc8]
                      rw [hh] at h
                      exact callConvInv_handleInc path n st pieces out h hinv
                    · by_cases hc9 : pieces.head?.getD "" = "enum"
                      · have hh : dispatch path n st pieces = handleEnum path n st m pieces := by
                          simp [dispatch, hc0, hmeta, hc1, hc2, hc3, hc4, hc5, hc6, hc7, hc8, hc9]
                        rw [hh] at h
                        exact callConvInv_handleEnum path n st m pieces out hmeta h hinv
                      · by_cases hc10 : pieces.head?.getD "" = "vnt"
                        · have hh : dispatch path n st pieces = handleVnt path n st pieces := by
                            simp [dispatch, hc0, hmeta, hc1, hc2, hc3, hc4, hc5, hc6, hc7, hc8, hc9, hc10]
                          rw [hh] at h
                          exact callConvInv_handleVnt path n st pieces out h hinv
                        · have hh : dispatch path n st pieces =
                              .error (.located path n
                                ("unknown command " ++ pieces.head?.getD "")) := by
                            simp [dispatch, hc0, hmeta, hc1, hc2, hc3, hc4, hc5, hc6, hc7, hc8, hc9, hc10]
                          rw [hh] at h
                          simp at h

theorem callConvInv_processLine (path : String) (n : Nat)
    (st : CollectorState) (raw : String) (out : StepOut)
    (h : processLine path n st raw = .ok out) (hinv : callConvInv st) :
    callConvInv (outState out) := by
  unfold processLine at h
  cases hp : parseLineFields raw with
  | none =>
    rw [hp] at h
    injection h with h2
    subst h2
    exact hinv
  | some pieces =>
    rw [hp] at h
    exact callConvInv_dispatch path n st pieces out h hinv

theorem callConvInv_collectLines
    (rec : String → CollectorState → Except CollectError CollectorState)
    (hrec : ∀ p a b, rec p a = .ok b → callConvInv a → callConvInv b)
    (path : String) :
    ∀ (lns : List String) (k : Nat) (st st2 : CollectorState),
      collectLinesGo rec path k lns st = .ok st2 →
      callConvInv st → callConvInv st2 := by
  intro lns
  induction lns with
  | nil =>
    intro k st st2 h hinv
    unfold collectLinesGo at h
    injection h with h2
    subst h2
    exact hinv
  | cons ln rest ih =>
    intro k st st2 h hinv
    unfold collectLinesGo at h
    cases hp : processLine path k st ln with
    | error e => rw [hp] at h; simp at h
    | ok o =>
      rw [hp] at h
      cases o with
      | next stN =>
        exact ih _ _ _ h (callConvInv_processLine path k st ln _ hp hinv)
      | inc stI sub =>
        simp only [] at h
        cases hr : rec sub stI with
        | error e => rw [hr] at h; simp at h
        | ok stR =>
          rw [hr] at h
          simp only [] at h
          have hI : callConvInv stI :=
            callConvInv_processLine path k st ln _ hp hinv
          exact ih _ _ _ h (hrec sub stI stR hr hI)

theorem callConvInv_collectPath (fs : String → Option (List String)) :
    ∀ (fuel : Nat) (path : String) (st st2 : CollectorState),
      collectPathFuel fs fuel path st = .ok st2 →
      callConvInv st → callConvInv st2 := by
  intro fuel
  induction fuel with
  | zero =>
    intro path st st2 h
    unfold collectPathFuel at h
    simp at h
  | succ fuel ih =>
    intro path st st2 h hinv
    unfold collectPathFuel at h
    cases hf : fs path with
    | none => rw [hf] at h; simp at h
    | some lns =>
      rw [hf] at h
      exact callConvInv_collectLines (collectPathFuel fs fuel)
        (fun p a b hab hia => ih p a b hab hia) path lns 1 st st2 h hinv

/-- C9: in every model produced by a complete collector run, every free
function carries calling convention `"winapi"` and every
function-pointer type carries the numeric calling-convention code 1,
whose attribute blob bytes render as `01 00 00 00`. -/
theorem C9_calling_conventions :
    ∀ (fs : String → Option (List String)) (fuel : Nat) (path : String)
      (st2 : CollectorState) (m : Metadata),
      collectPathFuel fs fuel path initState = .ok st2 →
      st2.meta = some m →
      (∀ f ∈ m.funcs, f.call_conv = "winapi") ∧
      (∀ p ∈ m.func_ptrs, p.call_conv_int = 1 ∧
        call_conv_hex p = .ok "01 00 00 00") := by
  intro fs fuel path st2 m h hm
  have hinit : callConvInv initState := by
    intro m2 hm2
    simp [initState] at hm2
  have hinv := callConvInv_collectPath fs fuel path initState st2 h hinit
  obtain ⟨h1, h2⟩ := hinv m hm
  refine ⟨h1, fun p hp => ⟨h2 p hp, ?_⟩⟩
  have hcc := h2 p hp
  unfold call_conv_hex
  rw [hcc]
  decide

/-- C9 witness: the invariant read off the concrete run building one
free function and one function-pointer type. -/
theorem C9_calling_conventions_witness :
    (∀ f ∈ mC9.funcs, f.call_conv = "winapi") ∧
    (∀ p ∈ mC9.func_ptrs, p.call_conv_int = 1 ∧
      call_conv_hex p = .ok "01 00 00 00") :=
  C9_calling_conventions fsC9 2 "main" stC9 mC9 (by decide) rfl

end DllExports
